import Mathlib

/-
Verification of the 2D matrix-stiffness frame solver (src/frame/solver.ts).

The solver is embedded shallowly over an arbitrary linear ordered field.
JavaScript numbers become elements of the field; number[] becomes List,
number[][] becomes List (List _), with out-of-range reads giving the
default 0 (reads in the solver are always in range).  Math.sqrt is passed
in as an explicit function parameter: general theorems quantify over it,
statements about geometry instantiate it with Real.sqrt, and concrete
executable runs use an exact rational square root on perfect squares.
Code that can throw (member creation with an unregistered node id) is
embedded in Except; the try/catch of analyzeStructure becomes a match.
-/

attribute [local semireducible] Rat.add Rat.mul Rat.sub Rat.inv Rat.ofScientific

set_option maxRecDepth 100000

namespace Frame2D

variable {α : Type} [LinearOrderedField α]

/-! ## Linear algebra kernel (the NP helpers of solver.ts) -/

namespace NP

/-- Matrix entry read: matrix[i][j], with 0 for out-of-range reads. -/
def mget (M : List (List α)) (i j : Nat) : α := (M.getD i []).getD j 0

/-- Vector entry read: v[i], with 0 for out-of-range reads. -/
def vget (v : List α) (i : Nat) : α := v.getD i 0

/-- NP.matmul, matrix-matrix branch.  result[i][j] is the accumulation of
A[i][k]*B[k][j] over k < A[0].length; the shape-mismatch throw cannot fire
on the always-consistent shapes produced by the solver pipeline. -/
def matmul (A B : List (List α)) : List (List α) :=
  (List.range A.length).map fun i =>
    (List.range (B.headD []).length).map fun j =>
      ∑ k in Finset.range (A.headD []).length, mget A i k * mget B k j

/-- NP.matmul, matrix-vector branch. -/
def matmulVec (A : List (List α)) (b : List α) : List α :=
  (List.range A.length).map fun i =>
    ∑ k in Finset.range (A.headD []).length, mget A i k * vget b k

/-- NP.transpose: A[0].map((_, i) => A.map(row => row[i])). -/
def transpose (A : List (List α)) : List (List α) :=
  (List.range (A.headD []).length).map fun i =>
    (List.range A.length).map fun j => mget A j i

/-- NP.ix_: gather the submatrix M[rows[i]][cols[j]]. -/
def ix_ (M : List (List α)) (rows cols : List Nat) : List (List α) :=
  rows.map fun r => cols.map fun c => mget M r c

/-- Pivot threshold 1e-12 used by NP.solve. -/
def pivotTol : α := 1 / 1000000000000

/-- Partial-pivot row search of NP.solve: starting from maxRow = i, scan
k = i+1 .. n-1 and keep k whenever |M[k][i]| > |M[maxRow][i]|. -/
def pivotRow (M : List (List α)) (i n : Nat) : Nat :=
  (List.range' (i+1) (n - (i+1))).foldl
    (fun maxRow k => if |mget M k i| > |mget M maxRow i| then k else maxRow) i

/-- Swap of entries i and j of a list (the destructuring swap in NP.solve). -/
def swapIdx (l : List β) (dflt : β) (i j : Nat) : List β :=
  (l.set i (l.getD j dflt)).set j (l.getD i dflt)

/-- One iteration of the forward-elimination loop of NP.solve for column i:
pivot search, row swap, and (when the pivot is not below 1e-12) elimination
of the entries below the pivot; a below-threshold pivot is skipped. -/
def elimStep (n : Nat) (Mx : List (List α) × List α) (i : Nat) :
    List (List α) × List α :=
  let M := Mx.1
  let x := Mx.2
  let maxRow := pivotRow M i n
  let M1 := swapIdx M [] i maxRow
  let x1 := swapIdx x 0 i maxRow
  if |mget M1 i i| < pivotTol then (M1, x1)
  else
    let M2 := M1.mapIdx fun k row =>
      if i < k then
        row.mapIdx fun j v =>
          if i ≤ j then v - mget M1 k i / mget M1 i i * mget M1 i j else v
      else row
    let x2 := x1.mapIdx fun k v =>
      if i < k then v - mget M1 k i / mget M1 i i * vget x1 i else v
    (M2, x2)

/-- Back substitution of NP.solve; a row whose pivot magnitude is below
1e-12 gets the solution entry 0 (the "free movement if singular" branch). -/
def backSub (n : Nat) (M : List (List α)) (x : List α) : List α :=
  (List.range n).reverse.foldl
    (fun res i =>
      if |mget M i i| < pivotTol then res.set i 0
      else
        res.set i
          ((vget x i - ∑ j in Finset.Ico (i+1) n, mget M i j * vget res j)
            / mget M i i))
    (List.replicate n 0)

/-- NP.solve: Gaussian elimination with partial pivoting, then back
substitution.  Note that it never throws: singular pivots are skipped in
elimination and produce zero entries in back substitution. -/
def solve (A : List (List α)) (b : List α) : List α :=
  let n := A.length
  let Mx := (List.range n).foldl (elimStep n) (A, b)
  backSub n Mx.1 Mx.2

end NP

/-! ## Element formulations -/

/-- Local-to-global transformation matrix for a 6-DOF frame element. -/
def transformation_matrix (s c : α) : List (List α) :=
  [[c, s, 0, 0, 0, 0],
   [-s, c, 0, 0, 0, 0],
   [0, 0, 1, 0, 0, 0],
   [0, 0, 0, c, s, 0],
   [0, 0, 0, -s, c, 0],
   [0, 0, 0, 0, 0, 1]]

/-- The dof=4 branch of transformation_matrix: rows and columns 2 and 5
removed, keeping indices [0, 1, 3, 4]. -/
def transformation_matrix4 (s c : α) : List (List α) :=
  NP.ix_ (transformation_matrix s c) [0, 1, 3, 4] [0, 1, 3, 4]

/-- BeamElement.beam_local_stiffness_matrix. -/
def beam_local_stiffness_matrix (A E I l : α) : List (List α) :=
  let c1 := A * E / l
  let c2 := E * I / l ^ 3
  [[c1, 0, 0, -c1, 0, 0],
   [0, 12 * c2, 6 * c2 * l, 0, -12 * c2, 6 * c2 * l],
   [0, 6 * c2 * l, 4 * c2 * l ^ 2, 0, -6 * c2 * l, 2 * c2 * l ^ 2],
   [-c1, 0, 0, c1, 0, 0],
   [0, -12 * c2, -6 * c2 * l, 0, 12 * c2, -6 * c2 * l],
   [0, 6 * c2 * l, 2 * c2 * l ^ 2, 0, -6 * c2 * l, 4 * c2 * l ^ 2]]

/-- BeamElement.beam_stiffness_matrix: k_global = Tᵗ · k_local · T. -/
def beam_stiffness_matrix (A E I l s c : α) : List (List α) :=
  NP.matmul (NP.transpose (transformation_matrix s c))
    (NP.matmul (beam_local_stiffness_matrix A E I l) (transformation_matrix s c))

/-- SpringElement.spring_local_stiffness_matrix. -/
def spring_local_stiffness_matrix (k : α) : List (List α) :=
  [[k, 0, -k, 0],
   [0, 0, 0, 0],
   [-k, 0, k, 0],
   [0, 0, 0, 0]]

/-- SpringElement.spring_stiffness_matrix: k_global = T4ᵗ · k_local · T4. -/
def spring_stiffness_matrix (k s c : α) : List (List α) :=
  NP.matmul (NP.transpose (transformation_matrix4 s c))
    (NP.matmul (spring_local_stiffness_matrix k) (transformation_matrix4 s c))

/-- Local slot of a global slot under the spring expansion map
[0, 1, 3, 4]; global slots 2 and 5 (rotations) have no local slot. -/
def springSlot (i : Nat) : Option Nat :=
  match i with
  | 0 => some 0
  | 1 => some 1
  | 3 => some 2
  | 4 => some 3
  | _ => none

/-- Expansion of a spring 4x4 global block into the 6x6 layout used for
assembly: k_expanded[map[r]][map[c]] = kg[r][c] with map = [0,1,3,4] and
zeros in the rotational rows and columns. -/
def expand_spring (kg : List (List α)) : List (List α) :=
  (List.range 6).map fun i =>
    (List.range 6).map fun j =>
      match springSlot i, springSlot j with
      | some r, some c => NP.mget kg r c
      | _, _ => 0

/-! ## Structure state (class Structure of solver.ts)

The nodes dictionary keyed by the dense 1-based id is embedded as a list
(position p holds the node with id p+1); the elements dictionary likewise.
-/

/-- Element kind with its mechanical properties (the type-tagged fields of
the element property bag). -/
inductive ElemKind (α : Type) where
  | frame (E A I : α)
  | spring (k : α)
deriving DecidableEq

/-- One entry of Structure.nodes: external id string, coordinates, the
optional support triple written by add_support, and the accumulated nodal
load written by add_node_load. -/
structure NodeData (α : Type) where
  idStr : String
  x : α
  y : α
  support : Option (Nat × Nat × Nat)
  load : α × α × α
deriving DecidableEq

/-- One entry of Structure.elements: external id string, 1-based endpoint
node ids, derived geometry, kind, and the optional equivalent nodal load
vector written by add_distributed_load. -/
structure ElemData (α : Type) where
  idStr : String
  node_i : Nat
  node_j : Nat
  length : α
  sine : α
  cosine : α
  kind : ElemKind α
  eq_load : Option (List α)
deriving DecidableEq

/-- Placeholder node used for always-in-range list reads. -/
def emptyNode : NodeData α := ⟨"", 0, 0, none, (0, 0, 0)⟩

/-- Placeholder element used for always-in-range list reads. -/
def emptyElem : ElemData α := ⟨"", 0, 0, 0, 0, 0, ElemKind.frame 0 0 0, none⟩

/-- Structure.get_id: the idMap is built by overwriting assignments in
creation order, so a lookup returns the 1-based id of the last node whose
id string matches. -/
def get_id (nodes : List (NodeData α)) (s : String) : Option Nat :=
  match nodes.reverse.findIdx? (fun n => n.idStr == s) with
  | some k => some (nodes.length - k)
  | none => none

/-- Structure.add_node: appends the node and assigns the next 1-based id. -/
def add_node (nodes : List (NodeData α)) (idStr : String) (x y : α) :
    List (NodeData α) :=
  nodes ++ [⟨idStr, x, y, none, (0, 0, 0)⟩]

/-- Structure.get_length_sine_cosine, with Math.sqrt passed explicitly.
When the computed length is 0 the code substitutes length 0.0001 and the
identity orientation instead of dividing by zero. -/
def get_length_sine_cosine (sqrt : α → α) (ni nj : NodeData α) : α × α × α :=
  let del_x := nj.x - ni.x
  let del_y := nj.y - ni.y
  let length := sqrt (del_x ^ 2 + del_y ^ 2)
  if length = 0 then (1 / 10000, 0, 1)
  else (length, del_y / length, del_x / length)

/-- Structure.add_frame.  An unregistered endpoint id makes the original
code dereference an undefined node (a thrown TypeError, caught by
analyzeStructure); that is embedded as Except.error. -/
def add_frame (sqrt : α → α) (nodes : List (NodeData α))
    (elements : List (ElemData α)) (idStr ni_str nj_str : String)
    (E A I : α) : Except String (List (ElemData α)) :=
  match get_id nodes ni_str, get_id nodes nj_str with
  | some ni, some nj =>
    let g := get_length_sine_cosine sqrt (nodes.getD (ni - 1) emptyNode)
      (nodes.getD (nj - 1) emptyNode)
    .ok (elements ++ [⟨idStr, ni, nj, g.1, g.2.1, g.2.2, .frame E A I, none⟩])
  | _, _ => .error "unknown node id"

/-- Structure.add_spring; same unknown-node behaviour as add_frame. -/
def add_spring (sqrt : α → α) (nodes : List (NodeData α))
    (elements : List (ElemData α)) (idStr ni_str nj_str : String)
    (k : α) : Except String (List (ElemData α)) :=
  match get_id nodes ni_str, get_id nodes nj_str with
  | some ni, some nj =>
    let g := get_length_sine_cosine sqrt (nodes.getD (ni - 1) emptyNode)
      (nodes.getD (nj - 1) emptyNode)
    .ok (elements ++ [⟨idStr, ni, nj, g.1, g.2.1, g.2.2, .spring k, none⟩])
  | _, _ => .error "unknown node id"

/-- Structure.add_support: replaces the support triple of the node; a
lookup miss is silently ignored (the if (node_id) guard). -/
def add_support (nodes : List (NodeData α)) (s : String)
    (t : Nat × Nat × Nat) : List (NodeData α) :=
  match get_id nodes s with
  | some id =>
    nodes.set (id - 1) { nodes.getD (id - 1) emptyNode with support := some t }
  | none => nodes

/-- Structure.add_node_load: accumulates onto the node's load triple; a
lookup miss is silently ignored. -/
def add_node_load (nodes : List (NodeData α)) (s : String)
    (load : α × α × α) : List (NodeData α) :=
  match get_id nodes s with
  | some id =>
    let n := nodes.getD (id - 1) emptyNode
    nodes.set (id - 1)
      { n with load :=
          (n.load.1 + load.1, n.load.2.1 + load.2.1, n.load.2.2 + load.2.2) }
  | none => nodes

/-- Structure.add_distributed_load: finds the first element whose id
string matches (Object.values(...).find), and replaces its eq_load with
the fixed-end-action vector of the given load kind.  For a point load the
JavaScript "location || L / 2" treats both an absent location and the
falsy location 0 as midspan. -/
def add_distributed_load (elements : List (ElemData α)) (idStr : String)
    (w : α) (ltype : String) (location : Option α) : List (ElemData α) :=
  match elements.findIdx? (fun e => e.idStr == idStr) with
  | none => elements
  | some i =>
    let e := elements.getD i emptyElem
    let L := e.length
    if ltype = "udl" then
      elements.set i
        { e with
          eq_load := some [0, w * L / 2, w * L ^ 2 / 12, 0, w * L / 2,
            -(w * L ^ 2) / 12] }
    else if ltype = "triangular_sym" then
      elements.set i
        { e with
          eq_load := some [0, w * L / 4, 5 * w * L ^ 2 / 96, 0, w * L / 4,
            -(5 * w * L ^ 2) / 96] }
    else if ltype = "point" then
      let P := w
      let lv := location.getD 0
      let a := if lv = 0 then L / 2 else lv
      let b := L - a
      elements.set i
        { e with
          eq_load := some [0, P * b ^ 2 * (3 * a + b) / L ^ 3,
            P * a * b ^ 2 / L ^ 2, 0, P * a ^ 2 * (a + 3 * b) / L ^ 3,
            -(P * a ^ 2 * b) / L ^ 2] }
    else elements

/-- Structure.calculate_element_stiffness_matrix: the global 6x6 block of
an element (spring blocks expanded from 4x4). -/
def calculate_element_stiffness_matrix (e : ElemData α) : List (List α) :=
  match e.kind with
  | .frame E A I => beam_stiffness_matrix A E I e.length e.sine e.cosine
  | .spring k => expand_spring (spring_stiffness_matrix k e.sine e.cosine)

/-- Structure.get_dofs: the three global DOF indices of a 1-based node id. -/
def get_dofs (node_id : Nat) : List Nat :=
  [(node_id - 1) * 3, (node_id - 1) * 3 + 1, (node_id - 1) * 3 + 2]

/-- Scatter indices of an element: the dofs of node_i then node_j. -/
def elem_dofs (e : ElemData α) : List Nat :=
  get_dofs e.node_i ++ get_dofs e.node_j

/-- Support triple of a node, defaulting to (0,0,0) when absent. -/
def supportTriple (n : NodeData α) : Nat × Nat × Nat :=
  n.support.getD (0, 0, 0)

/-- Component s (0 = x, 1 = y, 2 = rotation) of a support triple. -/
def supportComp (t : Nat × Nat × Nat) (s : Nat) : Nat :=
  if s = 0 then t.1 else if s = 1 then t.2.1 else t.2.2

/-- One iteration of the flag loop of Structure.get_free_dofs: node at
0-based position p clears the flags of its fixed DOFs. -/
def applySupportFlags (flags : List Nat) (p : Nat) (n : NodeData α) :
    List Nat :=
  let dofs := get_dofs (p + 1)
  let s := supportTriple n
  let f0 := if s.1 = 1 then flags.set (dofs.getD 0 0) 0 else flags
  let f1 := if s.2.1 = 1 then f0.set (dofs.getD 1 0) 0 else f0
  if s.2.2 = 1 then f1.set (dofs.getD 2 0) 0 else f1

/-- The free_dofs_flags array of Structure.get_free_dofs: all 1 (free),
then each node clears its supported DOFs. -/
def free_dofs_flags (nodes : List (NodeData α)) : List Nat :=
  (List.range nodes.length).foldl
    (fun flags p => applySupportFlags flags p (nodes.getD p emptyNode))
    (List.replicate (nodes.length * 3) 1)

/-- Structure.free_dof: indices with flag 1, pushed in ascending order. -/
def free_dof (nodes : List (NodeData α)) : List Nat :=
  (List.range (nodes.length * 3)).filter
    (fun i => (free_dofs_flags nodes).getD i 0 == 1)

/-- Structure.fix_dof: indices with flag not 1, pushed in ascending order. -/
def fix_dof (nodes : List (NodeData α)) : List Nat :=
  (List.range (nodes.length * 3)).filter
    (fun i => !((free_dofs_flags nodes).getD i 0 == 1))

/-- Structure.assemble_structure_stiffness_matrix.  K starts as zeros and
each element accumulates its 6x6 global block at its scatter indices via
NP.addToSubmatrix (target[rows[a]][cols[b]] += source[a][b]); entrywise,
the finished K[i][j] is therefore the sum over all elements of their
matching contributions, which is the form used here. -/
def assemble_structure_stiffness_matrix (nodeCount : Nat)
    (elements : List (ElemData α)) : List (List α) :=
  (List.range (nodeCount * 3)).map fun i =>
    (List.range (nodeCount * 3)).map fun j =>
      (elements.map fun e =>
        ∑ a in Finset.range 6, ∑ b in Finset.range 6,
          if (elem_dofs e).getD a 0 = i ∧ (elem_dofs e).getD b 0 = j
          then NP.mget (calculate_element_stiffness_matrix e) a b
          else 0).sum

/-- The node_load vector of Structure.assemble_load_vector: zeros, then
each node adds its accumulated load triple at its three DOFs. -/
def node_load_vec (nodes : List (NodeData α)) : List α :=
  (List.range (nodes.length * 3)).map fun d =>
    ((List.range nodes.length).map fun p =>
      let dofs := get_dofs (p + 1)
      let ld := (nodes.getD p emptyNode).load
      (if dofs.getD 0 0 = d then ld.1 else 0)
        + (if dofs.getD 1 0 = d then ld.2.1 else 0)
        + (if dofs.getD 2 0 = d then ld.2.2 else 0)).sum

/-- The eq_node_load vector of Structure.assemble_load_vector: zeros, then
each element with an eq_load adds its six components at its scatter
indices. -/
def eq_node_load_vec (nodeCount : Nat) (elements : List (ElemData α)) :
    List α :=
  (List.range (nodeCount * 3)).map fun d =>
    (elements.map fun e =>
      match e.eq_load with
      | none => 0
      | some ql =>
        ∑ a in Finset.range 6,
          if (elem_dofs e).getD a 0 = d then ql.getD a 0 else 0).sum

/-- The eff_node_load vector: node_load + eq_node_load, entrywise. -/
def eff_node_load_vec (nodes : List (NodeData α))
    (elements : List (ElemData α)) : List α :=
  (node_load_vec nodes).mapIdx fun i v =>
    v + NP.vget (eq_node_load_vec nodes.length elements) i

/-- Structure.find_displacements: reduce K and the effective load to the
free DOFs, solve (the empty free set yields no unknowns), and scatter the
solution back into the full displacement vector, fixed DOFs staying 0. -/
def find_displacements (nodes : List (NodeData α))
    (elements : List (ElemData α)) : List α :=
  let K := assemble_structure_stiffness_matrix nodes.length elements
  let free := free_dof nodes
  let K_reduced := NP.ix_ K free free
  let load_reduced := free.map fun i =>
    NP.vget (eff_node_load_vec nodes elements) i
  let u_free := if free.isEmpty then [] else NP.solve K_reduced load_reduced
  (free.zip u_free).foldl (fun v di => v.set di.1 di.2)
    (List.replicate (nodes.length * 3) 0)

/-- Structure.find_reactions: for the fixed DOFs, the rows of K times the
full displacement vector, minus the equivalent loads at those DOFs; empty
when no DOF is fixed. -/
def find_reactions (nodes : List (NodeData α))
    (elements : List (ElemData α)) (U : List α) : List α :=
  let fix := fix_dof nodes
  if fix.isEmpty then []
  else
    let K := assemble_structure_stiffness_matrix nodes.length elements
    let K_fix := NP.ix_ K fix (List.range (nodes.length * 3))
    let KU := NP.matmulVec K_fix U
    let eq_fixed := fix.map fun d =>
      NP.vget (eq_node_load_vec nodes.length elements) d
    KU.mapIdx fun i v => v - NP.vget eq_fixed i

/-- getElementForces: local end forces k_local · (T · d_global) minus the
element's equivalent load (spring local blocks expanded to 6x6 first). -/
def getElementForces (e : ElemData α) (U : List α) : List α :=
  let k := match e.kind with
    | .frame E A I => beam_local_stiffness_matrix A E I e.length
    | .spring kk => expand_spring (spring_local_stiffness_matrix kk)
  let t := transformation_matrix e.sine e.cosine
  let d_global := (elem_dofs e).map fun i => NP.vget U i
  let d_local := NP.matmulVec t d_global
  let kd := NP.matmulVec k d_local
  let eq := e.eq_load.getD [0, 0, 0, 0, 0, 0]
  kd.mapIdx fun i v => v - NP.vget eq i

/-! ## External interface (types.ts and analyzeStructure) -/

/-- Node of the input model. -/
structure ModelNode (α : Type) where
  id : String
  x : α
  y : α
deriving DecidableEq

/-- MemberType of types.ts. -/
inductive MemberType where
  | beam
  | truss
  | spring
deriving DecidableEq

/-- Member of the input model; unset numeric properties are None and
default inside analyzeStructure. -/
structure Member (α : Type) where
  id : String
  startNodeId : String
  endNodeId : String
  eModulus : Option α
  area : Option α
  momentInertia : Option α
  springConstant : Option α
  type : MemberType
deriving DecidableEq

/-- SupportType of types.ts. -/
inductive SupportType where
  | PIN
  | ROLLER
  | FIXED
deriving DecidableEq

/-- Support of the input model. -/
structure Support where
  id : String
  nodeId : String
  type : SupportType
deriving DecidableEq

/-- LoadType of types.ts. -/
inductive LoadType where
  | NODAL_POINT
  | MEMBER_POINT
  | MEMBER_DISTRIBUTED
deriving DecidableEq

/-- Load of the input model. -/
structure Load (α : Type) where
  id : String
  type : LoadType
  nodeId : Option String
  memberId : Option String
  magnitudeX : α
  magnitudeY : α
  moment : Option α
  location : Option α
deriving DecidableEq

/-- StructureModel of types.ts. -/
structure StructureModel (α : Type) where
  nodes : List (ModelNode α)
  members : List (Member α)
  supports : List Support
  loads : List (Load α)
deriving DecidableEq

/-- AnalysisResults of types.ts; the maps keyed by id strings are
embedded as association lists in insertion order. -/
structure AnalysisResults (α : Type) where
  displacements : List (String × (α × α × α))
  reactions : List (String × (α × α × α))
  memberForces : List (String × ((α × α × α) × (α × α × α)))
  stiffnessMatrix : Option (List (List α))
  reducedStiffnessMatrix : Option (List (List α))
  isStable : Bool
  message : String
deriving DecidableEq

/-- Truthiness of an optional JavaScript string: undefined and "" are
falsy. -/
def strTruthy (s : Option String) : Bool :=
  match s with
  | some str => str ≠ ""
  | none => false

/-- The model-construction phase of analyzeStructure: registers nodes,
members (with the documented property defaults, truss forcing I = 0),
supports and loads.  Member creation is the only step that can throw. -/
def buildStructure (sqrt : α → α) (model : StructureModel α) :
    Except String (List (NodeData α) × List (ElemData α)) := do
  let nodes := model.nodes.foldl (fun ns n => add_node ns n.id n.x n.y) []
  let elements ← model.members.foldlM
    (fun es m =>
      match m.type with
      | .spring =>
        add_spring sqrt nodes es m.id m.startNodeId m.endNodeId
          (m.springConstant.getD 100)
      | _ =>
        add_frame sqrt nodes es m.id m.startNodeId m.endNodeId
          (m.eModulus.getD 200000000000) (m.area.getD (1 / 100))
          (if m.type = .truss then 0 else m.momentInertia.getD (1 / 10000)))
    []
  let nodes := model.supports.foldl
    (fun ns s =>
      add_support ns s.nodeId
        (match s.type with
         | .FIXED => (1, 1, 1)
         | .PIN => (1, 1, 0)
         | .ROLLER => (0, 1, 0)))
    nodes
  let nodes := model.loads.foldl
    (fun ns l =>
      if l.type = .NODAL_POINT ∧ strTruthy l.nodeId then
        add_node_load ns (l.nodeId.getD "")
          (l.magnitudeX, l.magnitudeY, l.moment.getD 0)
      else ns)
    nodes
  let elements := model.loads.foldl
    (fun es l =>
      if l.type = .NODAL_POINT ∧ strTruthy l.nodeId then es
      else if strTruthy l.memberId then
        (if l.type = .MEMBER_DISTRIBUTED then
          add_distributed_load es (l.memberId.getD "") l.magnitudeY "udl" none
        else if l.type = .MEMBER_POINT then
          add_distributed_load es (l.memberId.getD "") l.magnitudeY "point"
            l.location
        else es)
      else es)
    elements
  return (nodes, elements)

/-- Update of the reactionMap of analyzeStructure: ensure the key exists
(initialized to zeros, appended in first-touch order), then set the fx,
fy or moment component. -/
def upsertReaction (m : List (String × (α × α × α))) (key : String)
    (slot : Nat) (v : α) : List (String × (α × α × α)) :=
  let m1 := if m.any (fun p => p.1 == key) then m else m ++ [(key, (0, 0, 0))]
  m1.map fun p =>
    if p.1 = key then
      (p.1,
        if slot = 0 then (v, p.2.2.1, p.2.2.2)
        else if slot = 1 then (p.2.1, v, p.2.2.2)
        else if slot = 2 then (p.2.1, p.2.2.1, v)
        else p.2)
    else p

/-- analyzeStructure: build the structure, assemble, solve, and package
the results; any thrown error is caught and mapped to the fixed failure
record with isStable = false and empty result maps. -/
def analyzeStructure (sqrt : α → α) (model : StructureModel α) :
    AnalysisResults α :=
  match buildStructure sqrt model with
  | .error _ =>
    ⟨[], [], [], none, none, false,
      "Structure is unstable or inputs are invalid."⟩
  | .ok (nodes, elements) =>
    let K := assemble_structure_stiffness_matrix nodes.length elements
    let U := find_displacements nodes elements
    let R := find_reactions nodes elements U
    let displacements := (List.range nodes.length).map fun p =>
      ((nodes.getD p emptyNode).idStr,
        (NP.vget U (p * 3), NP.vget U (p * 3 + 1), NP.vget U (p * 3 + 2)))
    let reactions := (fix_dof nodes).enum.foldl
      (fun m id =>
        upsertReaction m (nodes.getD (id.2 / 3) emptyNode).idStr (id.2 % 3)
          (NP.vget R id.1))
      []
    let memberForces := elements.map fun e =>
      let f := getElementForces e U
      (e.idStr,
        ((NP.vget f 0, NP.vget f 1, NP.vget f 2),
          (NP.vget f 3, NP.vget f 4, NP.vget f 5)))
    ⟨displacements, reactions, memberForces, some K,
      some (NP.ix_ K (free_dof nodes) (free_dof nodes)), true,
      "Analysis Completed Successfully"⟩

/-- Exact square root on the rationals for concrete runs: the floor
square root of the integer part.  It agrees with the real square root on
the perfect-square integers that appear in the concrete models below (a
simple linear search, so that it evaluates inside the kernel). -/
def qsqrt (x : ℚ) : ℚ :=
  (((((List.range (x.num.toNat + 1)).filter
    (fun k => k * k ≤ x.num.toNat)).length - 1 : ℕ) : ℤ) : ℚ)

/-! ## Definitions taken from the specification text (for refinement
claims), and concrete models used by witnesses and counterexamples -/

/-- Frame-element local stiffness matrix as written in section 4.2 of the
specification, with c1 = EA/L and c2 = EI/L cubed. -/
def spec_frame_local_stiffness (E A I L : α) : List (List α) :=
  let c1 := E * A / L
  let c2 := E * I / L ^ 3
  [[c1, 0, 0, -c1, 0, 0],
   [0, 12 * c2, 6 * c2 * L, 0, -12 * c2, 6 * c2 * L],
   [0, 6 * c2 * L, 4 * c2 * L ^ 2, 0, -6 * c2 * L, 2 * c2 * L ^ 2],
   [-c1, 0, 0, c1, 0, 0],
   [0, -12 * c2, -6 * c2 * L, 0, 12 * c2, -6 * c2 * L],
   [0, 6 * c2 * L, 2 * c2 * L ^ 2, 0, -6 * c2 * L, 4 * c2 * L ^ 2]]

/-- Single spring of stiffness 100 between a fully fixed node n1 at the
origin and a free node n2 at (1, 0), with a nodal load of 50 in global X
at n2 (the test model of the specification's single-spring property). -/
def springModel : StructureModel ℚ :=
  ⟨[⟨"n1", 0, 0⟩, ⟨"n2", 1, 0⟩],
   [⟨"m1", "n1", "n2", none, none, none, some 100, .spring⟩],
   [⟨"s1", "n1", .FIXED⟩],
   [⟨"l1", .NODAL_POINT, some "n2", none, 50, 0, none, none⟩]⟩

/-- A single frame member with no supports at all: every DOF is free and
the reduced stiffness matrix is the full (singular) 6x6 member matrix. -/
def floatingModel : StructureModel ℚ :=
  ⟨[⟨"n1", 0, 0⟩, ⟨"n2", 1, 0⟩],
   [⟨"m1", "n1", "n2", some 1, some 1, some 1, none, .beam⟩],
   [],
   [⟨"l1", .NODAL_POINT, some "n2", none, 0, -10, none, none⟩]⟩

/-- A frame member with both end nodes fully fixed and a direct nodal
load of 50 in global X applied at the fixed node n1. -/
def bothFixedModel : StructureModel ℚ :=
  ⟨[⟨"n1", 0, 0⟩, ⟨"n2", 1, 0⟩],
   [⟨"m1", "n1", "n2", some 1, some 1, some 1, none, .beam⟩],
   [⟨"s1", "n1", .FIXED⟩, ⟨"s2", "n2", .FIXED⟩],
   [⟨"l1", .NODAL_POINT, some "n1", none, 50, 0, none, none⟩]⟩

/-- A model whose only member references the unregistered node id "nope". -/
def badModel : StructureModel ℚ :=
  ⟨[⟨"n1", 0, 0⟩],
   [⟨"m1", "n1", "nope", some 1, some 1, some 1, none, .beam⟩],
   [], []⟩

/-- A single already-registered element of length 5 (nodes at distance 5),
used to exercise add_distributed_load directly. -/
def sampleElems : List (ElemData ℚ) :=
  [⟨"m1", 1, 2, 5, 0, 1, .frame 1 1 1, none⟩]

/-- The structure state of the spring model, with node and element data
as built by analyzeStructure, used to exercise the reaction equilibrium
lemma on a concrete stable structure. -/
def springNodes : List (NodeData ℚ) :=
  [⟨"n1", 0, 0, some (1, 1, 1), (0, 0, 0)⟩,
   ⟨"n2", 1, 0, none, (50, 0, 0)⟩]

/-- Spring element of the spring model as built by analyzeStructure. -/
def springElems : List (ElemData ℚ) :=
  [⟨"m1", 1, 2, 1, 0, 1, .spring 100, none⟩]

/-- The displacement vector the solver finds for the spring model. -/
def springU : List ℚ := [0, 0, 0, 1/2, 0, 0]

/-! ## General list helper lemmas -/

lemma getD_map_range_lt {β : Type} (f : Nat → β) (d : β) {i n : Nat}
    (h : i < n) : ((List.range n).map f).getD i d = f i := by
  rw [List.getD_eq_getElem _ _ (by simpa using h)]
  simp

lemma getD_map_range_ge {β : Type} (f : Nat → β) (d : β) {i n : Nat}
    (h : n ≤ i) : ((List.range n).map f).getD i d = d :=
  List.getD_eq_default _ _ (by simpa using h)

lemma getD_set_self {β : Type} (l : List β) (i : Nat) (v d : β)
    (h : i < l.length) : (l.set i v).getD i d = v := by
  simp only [List.getD, List.get?_eq_getElem?]
  rw [List.getElem?_set_self (by omega)]
  rfl

lemma getD_set_ne {β : Type} (l : List β) {i j : Nat} (v d : β)
    (h : i ≠ j) : (l.set i v).getD j d = l.getD j d := by
  simp only [List.getD, List.get?_eq_getElem?, List.getElem?_set_ne h]

/-! ## Claim C4: frame local stiffness matrix -/

/-- C4: for every frame element with axial stiffness EA, bending
stiffness EI and length L > 0, the local stiffness matrix produced by
beam_local_stiffness_matrix is exactly the 6x6 matrix of section 4.2 of
the specification, with c1 = EA/L and c2 = EI/L cubed. -/
theorem frame_local_stiffness_matches_spec (A E I l : α) (hl : 0 < l) :
    beam_local_stiffness_matrix A E I l = spec_frame_local_stiffness E A I l := by
  unfold beam_local_stiffness_matrix spec_frame_local_stiffness
  norm_num [mul_comm]

/-- Witness for C4 at the concrete input E = 5, A = 3, I = 7, L = 2. -/
theorem frame_local_stiffness_matches_spec_witness :
    (0 : ℚ) < 2
      ∧ beam_local_stiffness_matrix (3 : ℚ) 5 7 2
        = spec_frame_local_stiffness 5 3 7 2 :=
  ⟨by norm_num, frame_local_stiffness_matches_spec 3 5 7 2 (by norm_num)⟩

/-! ## Claim C5: equivalent nodal loads of a UDL -/

/-- C5: for every registered element of length L carrying a uniformly
distributed load of magnitude w, the stored equivalent nodal load vector
is [0, wL/2, wL^2/12, 0, wL/2, -wL^2/12]. -/
theorem udl_equivalent_load (elements : List (ElemData α)) (s : String)
    (w L : α) (i : Nat)
    (hfind : elements.findIdx? (fun e => e.idStr == s) = some i)
    (hL : (elements.getD i emptyElem).length = L) :
    ((add_distributed_load elements s w "udl" none).getD i emptyElem).eq_load
      = some [0, w * L / 2, w * L ^ 2 / 12, 0, w * L / 2,
          -(w * L ^ 2) / 12] := by
  have hlen : i < elements.length :=
    (List.findIdx?_eq_some_iff_findIdx_eq.mp hfind).1
  unfold add_distributed_load
  rw [hfind]
  simp only [eq_self_iff_true, if_true]
  rw [getD_set_self _ _ _ _ (by simpa using hlen), hL]

/-- Witness for C5: the specification's concrete instance w = -10, L = 5
gives end shears -25 and end moments -125/6 and +125/6, that is,
-20.833... and +20.833... . -/
theorem udl_equivalent_load_witness :
    sampleElems.findIdx? (fun e => e.idStr == "m1") = some 0
      ∧ (sampleElems.getD 0 emptyElem).length = 5
      ∧ ((add_distributed_load sampleElems "m1" (-10) "udl" none).getD 0
          emptyElem).eq_load
        = some [0, -25, -125/6, 0, -25, 125/6] := by
  refine ⟨by decide, by decide, ?_⟩
  have h := udl_equivalent_load sampleElems "m1" (-10) 5 0 (by decide) (by decide)
  rw [h]
  norm_num

/-! ## Claim C10: member point load located at 0 -/

/-- C10: a member point load whose location is exactly 0, like one whose
location is unspecified, is treated as a midspan load: the equivalent
nodal loads are computed with a = L/2 (and b = L - L/2), not a = 0. -/
theorem point_load_at_zero_is_midspan (elements : List (ElemData α))
    (s : String) (P L : α) (i : Nat)
    (hfind : elements.findIdx? (fun e => e.idStr == s) = some i)
    (hL : (elements.getD i emptyElem).length = L) :
    add_distributed_load elements s P "point" (some 0)
        = add_distributed_load elements s P "point" none
      ∧ ((add_distributed_load elements s P "point" (some 0)).getD i
          emptyElem).eq_load
        = some [0, P * (L - L / 2) ^ 2 * (3 * (L / 2) + (L - L / 2)) / L ^ 3,
            P * (L / 2) * (L - L / 2) ^ 2 / L ^ 2, 0,
            P * (L / 2) ^ 2 * (L / 2 + 3 * (L - L / 2)) / L ^ 3,
            -(P * (L / 2) ^ 2 * (L - L / 2)) / L ^ 2] := by
  have hlen : i < elements.length :=
    (List.findIdx?_eq_some_iff_findIdx_eq.mp hfind).1
  have hset : ∀ loc : Option α, loc.getD 0 = 0 →
      add_distributed_load elements s P "point" loc
        = elements.set i
            { elements.getD i emptyElem with
              eq_load := some [0,
                P * ((elements.getD i emptyElem).length
                    - (elements.getD i emptyElem).length / 2) ^ 2
                  * (3 * ((elements.getD i emptyElem).length / 2)
                    + ((elements.getD i emptyElem).length
                      - (elements.getD i emptyElem).length / 2))
                  / (elements.getD i emptyElem).length ^ 3,
                P * ((elements.getD i emptyElem).length / 2)
                  * ((elements.getD i emptyElem).length
                    - (elements.getD i emptyElem).length / 2) ^ 2
                  / (elements.getD i emptyElem).length ^ 2, 0,
                P * ((elements.getD i emptyElem).length / 2) ^ 2
                  * ((elements.getD i emptyElem).length / 2
                    + 3 * ((elements.getD i emptyElem).length
                      - (elements.getD i emptyElem).length / 2))
                  / (elements.getD i emptyElem).length ^ 3,
                -(P * ((elements.getD i emptyElem).length / 2) ^ 2
                    * ((elements.getD i emptyElem).length
                      - (elements.getD i emptyElem).length / 2))
                  / (elements.getD i emptyElem).length ^ 2] } := by
    intro loc hloc
    unfold add_distributed_load
    rw [hfind]
    simp only [hloc, String.reduceEq, reduceIte, eq_self_iff_true, if_true,
      if_false]
  constructor
  · rw [hset (some 0) (by simp), hset none (by simp)]
  · rw [hset (some 0) (by simp),
      getD_set_self _ _ _ _ (by simpa using hlen)]
    rw [hL]

/-- Witness for C10 at P = 8 on the length-5 sample element. -/
theorem point_load_at_zero_is_midspan_witness :
    sampleElems.findIdx? (fun e => e.idStr == "m1") = some 0
      ∧ add_distributed_load sampleElems "m1" 8 "point" (some 0)
        = add_distributed_load sampleElems "m1" 8 "point" none
      ∧ ((add_distributed_load sampleElems "m1" 8 "point" (some 0)).getD 0
          emptyElem).eq_load
        = some [0, 4, 5, 0, 4, -5] := by
  have h := point_load_at_zero_is_midspan sampleElems "m1" 8 5 0 (by decide)
    (by decide)
  refine ⟨by decide, h.1, ?_⟩
  rw [h.2]
  norm_num

/-! ## Claim C6: single spring model -/

/-- C6: for the model with a single spring of stiffness k = 100, one end
fully fixed and an axial nodal load P = 50 at the free end,
analyzeStructure returns displacement P/k = 1/2 at the free node in the
load direction (and zero in the others) and reaction -50 at the fixed
node in that direction.  The rational square root agrees with the real
one on the squared member length 1. -/
theorem spring_model_solution :
    (analyzeStructure qsqrt springModel).displacements
        = [("n1", (0, 0, 0)), ("n2", (1/2, 0, 0))]
      ∧ (analyzeStructure qsqrt springModel).reactions
        = [("n1", (-50, 0, 0))]
      ∧ (analyzeStructure qsqrt springModel).isStable = true := by
  decide

/-! ## Claim C1: silent acceptance of unstable structures -/

/-- C1 (behaviour the code actually has, contradicting the claim): for a
model with one frame member and no supports at all, the reduced
stiffness matrix is singular, yet analyzeStructure reports success:
NP.solve skips below-threshold pivots and back-substitutes zeros instead
of raising an unstable-structure failure, so isStable is true. -/
theorem unsupported_model_reported_stable :
    (analyzeStructure qsqrt floatingModel).isStable = true
      ∧ (analyzeStructure qsqrt floatingModel).message
        = "Analysis Completed Successfully"
      ∧ (analyzeStructure qsqrt floatingModel).displacements
        = [("n1", (0, 0, 0)), ("n2", (0, 0, 0))] := by
  decide

/-! ## Claim C9: failures are mapped to the fixed failure result -/

/-- C9: analyzeStructure is total, and whenever the model-building phase
raises (for example a member referencing an unregistered node id), the
returned result is exactly the failure record: isStable = false, a
non-empty message, and empty displacement, reaction and member-force
maps -- no partial numeric results. -/
theorem analyze_error_gives_failure_record (sq : α → α)
    (m : StructureModel α) (e : String)
    (herr : buildStructure sq m = Except.error e) :
    analyzeStructure sq m
        = ⟨[], [], [], none, none, false,
            "Structure is unstable or inputs are invalid."⟩
      ∧ ("Structure is unstable or inputs are invalid." : String) ≠ "" := by
  constructor
  · unfold analyzeStructure
    rw [herr]
  · decide

/-- Witness for C9: the model whose member references the unregistered
node id "nope" makes buildStructure throw, and analyzeStructure returns
the failure record. -/
theorem analyze_error_gives_failure_record_witness :
    buildStructure qsqrt badModel = Except.error "unknown node id"
      ∧ analyzeStructure qsqrt badModel
        = ⟨[], [], [], none, none, false,
            "Structure is unstable or inputs are invalid."⟩ :=
  ⟨by rfl,
    (analyze_error_gives_failure_record qsqrt badModel "unknown node id"
      (by rfl)).1⟩

/-! ## Claim C3, counterexample: a stable structure with a direct nodal
load applied at a fixed DOF violates the claimed equilibrium sum -/

/-- C3 counterexample: both member ends fully fixed (a stable structure;
the analysis succeeds with isStable = true) with a direct nodal load of
50 in global X at the fixed node n1.  find_reactions subtracts only the
equivalent member loads, never the direct nodal loads at fixed DOFs, so
every reaction is 0 and the sum of the X reactions plus the sum of the X
nodal loads is 50, not 0. -/
theorem equilibrium_sum_fails_at_fixed_dof_load :
    (analyzeStructure qsqrt bothFixedModel).isStable = true
      ∧ ((analyzeStructure qsqrt bothFixedModel).reactions.map
            (fun p => p.2.1)).sum
          + (bothFixedModel.loads.map (fun l => l.magnitudeX)).sum ≠ 0 := by
  decide

/-! ## Claim C8: element geometry and the zero-length guard -/

/-- C8: with the real square root, an element whose endpoint nodes have
identical coordinates gets the minimum length 0.0001 and the identity
orientation (sine 0, cosine 1) instead of a division by zero, and an
element with distinct endpoints gets length sqrt(dx^2 + dy^2) (nonzero,
so the divisions are sound) with sine dy/L and cosine dx/L. -/
theorem geometry_zero_length_guard (ni nj : NodeData ℝ) :
    (ni.x = nj.x ∧ ni.y = nj.y →
        get_length_sine_cosine Real.sqrt ni nj = (1/10000, 0, 1))
      ∧ (¬(ni.x = nj.x ∧ ni.y = nj.y) →
          Real.sqrt ((nj.x - ni.x) ^ 2 + (nj.y - ni.y) ^ 2) ≠ 0
            ∧ get_length_sine_cosine Real.sqrt ni nj
              = (Real.sqrt ((nj.x - ni.x) ^ 2 + (nj.y - ni.y) ^ 2),
                 (nj.y - ni.y)
                   / Real.sqrt ((nj.x - ni.x) ^ 2 + (nj.y - ni.y) ^ 2),
                 (nj.x - ni.x)
                   / Real.sqrt ((nj.x - ni.x) ^ 2 + (nj.y - ni.y) ^ 2))) := by
  constructor
  · rintro ⟨hx, hy⟩
    simp only [get_length_sine_cosine, hx, hy]
    norm_num
  · intro h
    have hpos : 0 < (nj.x - ni.x) ^ 2 + (nj.y - ni.y) ^ 2 := by
      rcases not_and_or.mp h with h' | h'
      · have hne : nj.x - ni.x ≠ 0 := fun hc => h' (by linarith)
        have h1 := pow_two_pos_of_ne_zero hne
        have h2 := sq_nonneg (nj.y - ni.y)
        linarith
      · have hne : nj.y - ni.y ≠ 0 := fun hc => h' (by linarith)
        have h1 := pow_two_pos_of_ne_zero hne
        have h2 := sq_nonneg (nj.x - ni.x)
        linarith
    have hsq : Real.sqrt ((nj.x - ni.x) ^ 2 + (nj.y - ni.y) ^ 2) ≠ 0 :=
      ne_of_gt (Real.sqrt_pos.mpr hpos)
    refine ⟨hsq, ?_⟩
    simp only [get_length_sine_cosine]
    rw [if_neg hsq]

/-- Witness for C8 on the 3-4-5 triangle: nodes at (0,0) and (3,4) give
length 5, sine 4/5, cosine 3/5. -/
theorem geometry_zero_length_guard_witness :
    ¬(((⟨"a", 0, 0, none, (0, 0, 0)⟩ : NodeData ℝ).x
          = (⟨"b", 3, 4, none, (0, 0, 0)⟩ : NodeData ℝ).x)
        ∧ ((⟨"a", 0, 0, none, (0, 0, 0)⟩ : NodeData ℝ).y
          = (⟨"b", 3, 4, none, (0, 0, 0)⟩ : NodeData ℝ).y))
      ∧ get_length_sine_cosine Real.sqrt
          (⟨"a", 0, 0, none, (0, 0, 0)⟩ : NodeData ℝ)
          ⟨"b", 3, 4, none, (0, 0, 0)⟩ = (5, 4/5, 3/5) := by
  have hne : ¬(((⟨"a", 0, 0, none, (0, 0, 0)⟩ : NodeData ℝ).x
          = (⟨"b", 3, 4, none, (0, 0, 0)⟩ : NodeData ℝ).x)
        ∧ ((⟨"a", 0, 0, none, (0, 0, 0)⟩ : NodeData ℝ).y
          = (⟨"b", 3, 4, none, (0, 0, 0)⟩ : NodeData ℝ).y)) := by
    norm_num
  have h := (geometry_zero_length_guard (⟨"a", 0, 0, none, (0, 0, 0)⟩ : NodeData ℝ)
    ⟨"b", 3, 4, none, (0, 0, 0)⟩).2 hne
  have h25 : Real.sqrt
      (((⟨"b", 3, 4, none, (0, 0, 0)⟩ : NodeData ℝ).x
          - (⟨"a", 0, 0, none, (0, 0, 0)⟩ : NodeData ℝ).x) ^ 2
        + ((⟨"b", 3, 4, none, (0, 0, 0)⟩ : NodeData ℝ).y
          - (⟨"a", 0, 0, none, (0, 0, 0)⟩ : NodeData ℝ).y) ^ 2) = 5 := by
    rw [show (((⟨"b", 3, 4, none, (0, 0, 0)⟩ : NodeData ℝ).x
          - (⟨"a", 0, 0, none, (0, 0, 0)⟩ : NodeData ℝ).x) ^ 2
        + ((⟨"b", 3, 4, none, (0, 0, 0)⟩ : NodeData ℝ).y
          - (⟨"a", 0, 0, none, (0, 0, 0)⟩ : NodeData ℝ).y) ^ 2) = 5 ^ 2 by
      norm_num]
    exact Real.sqrt_sq (by norm_num)
  refine ⟨hne, ?_⟩
  rw [h.2, h25]
  norm_num

/-! ## Claim C7: the free/fixed DOF partition -/

lemma getD_set {β : Type} (l : List β) (i j : Nat) (v d : β) :
    (l.set i v).getD j d = if i = j ∧ i < l.length then v else l.getD j d := by
  rcases eq_or_ne i j with rfl | hne
  · by_cases h : i < l.length
    · simp [getD_set_self _ _ _ _ h, h]
    · have hset : l.set i v = l := List.set_eq_of_length_le (by omega)
      simp [hset, h]
  · simp [getD_set_ne _ _ _ hne, hne]

lemma applySupportFlags_length (flags : List Nat) (p : Nat)
    (n : NodeData α) : (applySupportFlags flags p n).length = flags.length := by
  unfold applySupportFlags
  by_cases h1 : (supportTriple n).1 = 1 <;>
    by_cases h2 : (supportTriple n).2.1 = 1 <;>
      by_cases h3 : (supportTriple n).2.2 = 1 <;>
        simp [h1, h2, h3, get_dofs]

lemma applySupportFlags_getD (flags : List Nat) (p : Nat) (n : NodeData α)
    (d : Nat) :
    (applySupportFlags flags p n).getD d 0
      = if d / 3 = p ∧ d < flags.length
            ∧ supportComp (supportTriple n) (d % 3) = 1
        then 0 else flags.getD d 0 := by
  have hred : applySupportFlags flags p n
      = (let s := supportTriple n
         let f0 := if s.1 = 1 then flags.set ((p + 1 - 1) * 3) 0 else flags
         let f1 := if s.2.1 = 1 then f0.set ((p + 1 - 1) * 3 + 1) 0 else f0
         if s.2.2 = 1 then f1.set ((p + 1 - 1) * 3 + 2) 0 else f1) := rfl
  rw [hred]
  simp only [Nat.add_sub_cancel]
  have hd3 : d / 3 = p ∧ d % 3 = 0 ↔ d = p * 3 := by omega
  have hd3' : d / 3 = p ∧ d % 3 = 1 ↔ d = p * 3 + 1 := by omega
  have hd3'' : d / 3 = p ∧ d % 3 = 2 ↔ d = p * 3 + 2 := by omega
  by_cases h1 : (supportTriple n).1 = 1 <;>
    by_cases h2 : (supportTriple n).2.1 = 1 <;>
      by_cases h3 : (supportTriple n).2.2 = 1 <;>
        simp only [h1, h2, h3, if_true, if_false, eq_self_iff_true,
          reduceIte, getD_set, List.length_set, supportComp] <;>
        rcases (show d % 3 = 0 ∨ d % 3 = 1 ∨ d % 3 = 2 by omega)
          with hm | hm | hm <;>
        simp only [hm] <;>
        split_ifs <;> first | contradiction | omega

lemma foldl_applySupportFlags_length (nodes : List (NodeData α))
    (ps : List Nat) (init : List Nat) :
    (ps.foldl (fun flags p => applySupportFlags flags p
      (nodes.getD p emptyNode)) init).length = init.length := by
  induction ps generalizing init with
  | nil => rfl
  | cons p ps ih => rw [List.foldl_cons, ih, applySupportFlags_length]

lemma foldl_applySupportFlags_getD (nodes : List (NodeData α))
    (ps : List Nat) (init : List Nat) (d : Nat) :
    (ps.foldl (fun flags p => applySupportFlags flags p
        (nodes.getD p emptyNode)) init).getD d 0
      = if d / 3 ∈ ps ∧ d < init.length
            ∧ supportComp (supportTriple (nodes.getD (d / 3) emptyNode))
              (d % 3) = 1
        then 0 else init.getD d 0 := by
  induction ps generalizing init with
  | nil => simp
  | cons p ps ih =>
    rw [List.foldl_cons, ih, applySupportFlags_length,
      applySupportFlags_getD]
    by_cases hp : d / 3 = p
    · subst hp
      simp only [List.mem_cons, true_or, eq_self_iff_true, true_and]
      split_ifs <;> first | rfl | omega
    · simp only [List.mem_cons, hp, false_or, false_and, if_false]
      try (split_ifs <;> first | rfl | omega)

lemma free_dofs_flags_length (nodes : List (NodeData α)) :
    (free_dofs_flags nodes).length = nodes.length * 3 := by
  unfold free_dofs_flags
  rw [foldl_applySupportFlags_length, List.length_replicate]

lemma getD_replicate {β : Type} (n i : Nat) (a d : β) :
    (List.replicate n a).getD i d = if i < n then a else d := by
  by_cases h : i < n
  · rw [List.getD_eq_getElem _ _ (by simpa using h)]
    simp [List.getElem_replicate, h]
  · rw [List.getD_eq_default _ _ (by simpa using Nat.le_of_not_lt h)]
    simp [h]

lemma free_dofs_flags_getD (nodes : List (NodeData α)) (d : Nat) :
    (free_dofs_flags nodes).getD d 0
      = if d < nodes.length * 3 then
          (if supportComp (supportTriple (nodes.getD (d / 3) emptyNode))
              (d % 3) = 1 then 0 else 1)
        else 0 := by
  unfold free_dofs_flags
  rw [foldl_applySupportFlags_getD, List.length_replicate, getD_replicate]
  by_cases hd : d < nodes.length * 3
  · have hmem : d / 3 ∈ List.range nodes.length := by
      rw [List.mem_range]; omega
    simp only [hmem, hd, true_and, if_true]
  · simp only [hd, and_false, false_and, if_false]

/-- C7: for every model, the free and fixed DOF index lists are disjoint,
together cover exactly the indices below 3N, are each sorted in strictly
ascending order, and an index lies in the fixed list exactly when the
support component of its node at its local slot is set (equal to 1). -/
theorem dof_partition_properties (nodes : List (NodeData α)) :
    (∀ d, ¬(d ∈ free_dof nodes ∧ d ∈ fix_dof nodes))
      ∧ (∀ d, (d ∈ free_dof nodes ∨ d ∈ fix_dof nodes)
          ↔ d < nodes.length * 3)
      ∧ (free_dof nodes).Sorted (· < ·)
      ∧ (fix_dof nodes).Sorted (· < ·)
      ∧ (∀ d, d ∈ fix_dof nodes
          ↔ d < nodes.length * 3
            ∧ supportComp (supportTriple (nodes.getD (d / 3) emptyNode))
              (d % 3) = 1) := by
  have hmemfree : ∀ d, d ∈ free_dof nodes
      ↔ d < nodes.length * 3 ∧ (free_dofs_flags nodes).getD d 0 = 1 := by
    intro d
    unfold free_dof
    rw [List.mem_filter, List.mem_range]
    simp
  have hmemfix : ∀ d, d ∈ fix_dof nodes
      ↔ d < nodes.length * 3 ∧ ¬(free_dofs_flags nodes).getD d 0 = 1 := by
    intro d
    unfold fix_dof
    rw [List.mem_filter, List.mem_range]
    simp
  refine ⟨?_, ?_, ?_, ?_, ?_⟩
  · intro d ⟨h1, h2⟩
    rw [hmemfree] at h1
    rw [hmemfix] at h2
    exact h2.2 h1.2
  · intro d
    rw [hmemfree, hmemfix]
    constructor
    · rintro (h | h) <;> exact h.1
    · intro hd
      by_cases h : (free_dofs_flags nodes).getD d 0 = 1
      · exact Or.inl ⟨hd, h⟩
      · exact Or.inr ⟨hd, h⟩
  · exact (List.pairwise_lt_range _).filter _
  · exact (List.pairwise_lt_range _).filter _
  · intro d
    rw [hmemfix, free_dofs_flags_getD]
    constructor
    · rintro ⟨hd, hflag⟩
      refine ⟨hd, ?_⟩
      rw [if_pos hd] at hflag
      by_contra hc
      rw [if_neg hc] at hflag
      exact hflag rfl
    · rintro ⟨hd, hcomp⟩
      refine ⟨hd, ?_⟩
      rw [if_pos hd, if_pos hcomp]
      omega

/-! ## Claim C2: symmetry of the assembled stiffness matrix -/

lemma mget_matmul (A B : List (List α)) (i j : Nat) :
    NP.mget (NP.matmul A B) i j
      = if i < A.length ∧ j < (B.headD []).length then
          ∑ k in Finset.range (A.headD []).length,
            NP.mget A i k * NP.mget B k j
        else 0 := by
  unfold NP.matmul NP.mget
  by_cases hi : i < A.length
  · rw [getD_map_range_lt _ _ hi]
    by_cases hj : j < (B.headD []).length
    · rw [getD_map_range_lt _ _ hj, if_pos ⟨hi, hj⟩]
    · rw [getD_map_range_ge _ _ (Nat.le_of_not_lt hj), if_neg (by tauto)]
  · rw [getD_map_range_ge _ _ (Nat.le_of_not_lt hi), if_neg (by tauto)]
    rfl

lemma mget_transpose (A : List (List α)) (i j : Nat) :
    NP.mget (NP.transpose A) i j
      = if i < (A.headD []).length ∧ j < A.length then NP.mget A j i
        else 0 := by
  unfold NP.transpose NP.mget
  by_cases hi : i < (A.headD []).length
  · rw [getD_map_range_lt _ _ hi]
    by_cases hj : j < A.length
    · rw [getD_map_range_lt _ _ hj, if_pos ⟨hi, hj⟩]
    · rw [getD_map_range_ge _ _ (Nat.le_of_not_lt hj), if_neg (by tauto)]
  · rw [getD_map_range_ge _ _ (Nat.le_of_not_lt hi), if_neg (by tauto)]
    rfl

lemma length_matmul (A B : List (List α)) :
    (NP.matmul A B).length = A.length := by
  simp [NP.matmul]

lemma headD_matmul (A B : List (List α)) (h : 0 < A.length) :
    (NP.matmul A B).headD []
      = (List.range (B.headD []).length).map fun j =>
          ∑ k in Finset.range ((A.headD []).length),
            NP.mget A 0 k * NP.mget B k j := by
  unfold NP.matmul
  rcases A with _ | ⟨r, A'⟩
  · simp at h
  · rw [List.length_cons, List.range_succ_eq_map]
    simp

lemma headD_length_matmul (A B : List (List α)) (h : 0 < A.length) :
    ((NP.matmul A B).headD []).length = (B.headD []).length := by
  rw [headD_matmul A B h]
  simp

/-- The 4-DOF transformation matrix written out. -/
lemma transformation_matrix4_eq (s c : α) :
    transformation_matrix4 s c
      = [[c, s, 0, 0], [-s, c, 0, 0], [0, 0, c, s], [0, 0, -s, c]] := rfl

/-- Symmetry of an entrywise-symmetric conjugated product Tᵗ·(K·T) for
square n-by-n inputs. -/
lemma conjugated_symm (t k : List (List α)) (n : Nat)
    (ht : t.length = n) (hth : (t.headD []).length = n)
    (hk : k.length = n) (hkh : (k.headD []).length = n)
    (hn : 0 < n)
    (hsym : ∀ a b, NP.mget k a b = NP.mget k b a) (a b : Nat) :
    NP.mget (NP.matmul (NP.transpose t) (NP.matmul k t)) a b
      = NP.mget (NP.matmul (NP.transpose t) (NP.matmul k t)) b a := by
  have hTlen : (NP.transpose t).length = n := by
    simp only [NP.transpose, List.length_map, List.length_range]
    exact hth
  have hTh : ((NP.transpose t).headD []).length = n := by
    unfold NP.transpose
    rw [hth]
    rcases n with _ | m
    · omega
    · rw [List.range_succ_eq_map]
      simp only [List.map_cons, List.headD_cons, List.length_map,
        List.length_range]
      exact ht
  have hM1h : ((NP.matmul k t).headD []).length = n := by
    rw [headD_length_matmul k t (by omega), hth]
  have key : ∀ x y, x < n → y < n →
      NP.mget (NP.matmul (NP.transpose t) (NP.matmul k t)) x y
        = ∑ p in Finset.range n, ∑ q in Finset.range n,
            NP.mget t p x * (NP.mget k p q * NP.mget t q y) := by
    intro x y hx hy
    rw [mget_matmul, if_pos ⟨by omega, by omega⟩, hTh]
    refine Finset.sum_congr rfl fun p hp => ?_
    have hpn : p < n := by
      rw [Finset.mem_range] at hp
      omega
    rw [mget_transpose, if_pos ⟨by omega, by omega⟩, mget_matmul,
      if_pos ⟨by omega, by omega⟩, hkh, Finset.mul_sum]
  by_cases hab : a < n ∧ b < n
  · rw [key a b hab.1 hab.2, key b a hab.2 hab.1, Finset.sum_comm]
    refine Finset.sum_congr rfl fun p _ => Finset.sum_congr rfl fun q _ => ?_
    rw [hsym q p]
    ring
  · rw [mget_matmul, mget_matmul, if_neg, if_neg]
    · rw [hTlen, hM1h]
      omega
    · rw [hTlen, hM1h]
      omega

/-- Entrywise symmetry of the frame local stiffness matrix. -/
lemma beam_local_symm (A E I l : α) (a b : Nat) :
    NP.mget (beam_local_stiffness_matrix A E I l) a b
      = NP.mget (beam_local_stiffness_matrix A E I l) b a := by
  by_cases hab : a < 6 ∧ b < 6
  · obtain ⟨ha, hb⟩ := hab
    interval_cases a <;> interval_cases b <;> rfl
  · have hz : ∀ x y : Nat, ¬(x < 6 ∧ y < 6) →
        NP.mget (beam_local_stiffness_matrix A E I l) x y = 0 := by
      intro x y hxy
      by_cases hx : x < 6
      · have hy : 6 ≤ y := by omega
        unfold NP.mget
        apply List.getD_eq_default
        interval_cases x <;> simpa [beam_local_stiffness_matrix] using hy
      · have hx6 : (beam_local_stiffness_matrix A E I l).length ≤ x := by
          simpa [beam_local_stiffness_matrix] using Nat.le_of_not_lt hx
        unfold NP.mget
        rw [List.getD_eq_default _ _ hx6]
        rfl
    rw [hz a b hab, hz b a (by tauto)]

/-- Entrywise symmetry of the spring local stiffness matrix. -/
lemma spring_local_symm (k : α) (a b : Nat) :
    NP.mget (spring_local_stiffness_matrix k) a b
      = NP.mget (spring_local_stiffness_matrix k) b a := by
  by_cases hab : a < 4 ∧ b < 4
  · obtain ⟨ha, hb⟩ := hab
    interval_cases a <;> interval_cases b <;> rfl
  · have hz : ∀ x y : Nat, ¬(x < 4 ∧ y < 4) →
        NP.mget (spring_local_stiffness_matrix k) x y = 0 := by
      intro x y hxy
      by_cases hx : x < 4
      · have hy : 4 ≤ y := by omega
        unfold NP.mget
        apply List.getD_eq_default
        interval_cases x <;> simpa [spring_local_stiffness_matrix] using hy
      · have hx4 : (spring_local_stiffness_matrix k).length ≤ x := by
          simpa [spring_local_stiffness_matrix] using Nat.le_of_not_lt hx
        unfold NP.mget
        rw [List.getD_eq_default _ _ hx4]
        rfl
    rw [hz a b hab, hz b a (by tauto)]

/-- Symmetry of the frame global stiffness block. -/
lemma beam_stiffness_symm (A E I l s c : α) (a b : Nat) :
    NP.mget (beam_stiffness_matrix A E I l s c) a b
      = NP.mget (beam_stiffness_matrix A E I l s c) b a := by
  unfold beam_stiffness_matrix
  exact conjugated_symm (transformation_matrix s c)
    (beam_local_stiffness_matrix A E I l) 6 rfl rfl rfl rfl (by omega)
    (beam_local_symm A E I l) a b

/-- Symmetry of the spring 4x4 global stiffness block. -/
lemma spring_stiffness_symm (k s c : α) (a b : Nat) :
    NP.mget (spring_stiffness_matrix k s c) a b
      = NP.mget (spring_stiffness_matrix k s c) b a := by
  unfold spring_stiffness_matrix
  rw [transformation_matrix4_eq]
  exact conjugated_symm
    [[c, s, 0, 0], [-s, c, 0, 0], [0, 0, c, s], [0, 0, -s, c]]
    (spring_local_stiffness_matrix k) 4 rfl rfl rfl rfl (by omega)
    (spring_local_symm k) a b

/-- The spring expansion to 6x6 preserves entrywise symmetry. -/
lemma expand_spring_symm (kg : List (List α))
    (hsym : ∀ a b, NP.mget kg a b = NP.mget kg b a) (a b : Nat) :
    NP.mget (expand_spring kg) a b = NP.mget (expand_spring kg) b a := by
  have hval : ∀ x y : Nat, x < 6 → y < 6 →
      NP.mget (expand_spring kg) x y
        = (match springSlot x, springSlot y with
           | some r, some c => NP.mget kg r c
           | _, _ => 0) := by
    intro x y hx hy
    unfold NP.mget expand_spring
    rw [getD_map_range_lt _ _ hx, getD_map_range_lt _ _ hy]
    rfl
  have hzero : ∀ x y : Nat, ¬(x < 6 ∧ y < 6) →
      NP.mget (expand_spring kg) x y = 0 := by
    intro x y hxy
    by_cases hx : x < 6
    · have hy : 6 ≤ y := by omega
      unfold NP.mget expand_spring
      rw [getD_map_range_lt _ _ hx, getD_map_range_ge _ _ hy]
    · unfold NP.mget expand_spring
      rw [getD_map_range_ge _ _ (Nat.le_of_not_lt hx)]
      simp
  by_cases hab : a < 6 ∧ b < 6
  · rw [hval a b hab.1 hab.2, hval b a hab.2 hab.1]
    rcases hsa : springSlot a with _ | ra <;>
      rcases hsb : springSlot b with _ | rb <;>
        simp [hsym]
  · rw [hzero a b hab, hzero b a (by tauto)]

/-- Symmetry of every element's assembled 6x6 global block. -/
lemma calc_elem_symm (e : ElemData α) (a b : Nat) :
    NP.mget (calculate_element_stiffness_matrix e) a b
      = NP.mget (calculate_element_stiffness_matrix e) b a := by
  unfold calculate_element_stiffness_matrix
  cases e.kind with
  | frame E A I => exact beam_stiffness_symm A E I e.length e.sine e.cosine a b
  | spring k =>
    exact expand_spring_symm _ (spring_stiffness_symm k e.sine e.cosine) a b

/-- C2: for every node count and element list, the global stiffness
matrix assembled by assemble_structure_stiffness_matrix is symmetric:
K[i][j] = K[j][i] for all i and j (entries outside the 3N range read 0 on
both sides). -/
theorem stiffness_matrix_symmetric (N : Nat)
    (elements : List (ElemData α)) (i j : Nat) :
    NP.mget (assemble_structure_stiffness_matrix N elements) i j
      = NP.mget (assemble_structure_stiffness_matrix N elements) j i := by
  have hval : ∀ x y : Nat, x < N * 3 → y < N * 3 →
      NP.mget (assemble_structure_stiffness_matrix N elements) x y
        = (elements.map fun e =>
            ∑ a in Finset.range 6, ∑ b in Finset.range 6,
              if (elem_dofs e).getD a 0 = x ∧ (elem_dofs e).getD b 0 = y
              then NP.mget (calculate_element_stiffness_matrix e) a b
              else 0).sum := by
    intro x y hx hy
    unfold NP.mget assemble_structure_stiffness_matrix
    rw [getD_map_range_lt _ _ hx, getD_map_range_lt _ _ hy]
    rfl
  have hzero : ∀ x y : Nat, ¬(x < N * 3 ∧ y < N * 3) →
      NP.mget (assemble_structure_stiffness_matrix N elements) x y = 0 := by
    intro x y hxy
    by_cases hx : x < N * 3
    · have hy : N * 3 ≤ y := by omega
      unfold NP.mget assemble_structure_stiffness_matrix
      rw [getD_map_range_lt _ _ hx, getD_map_range_ge _ _ hy]
    · unfold NP.mget assemble_structure_stiffness_matrix
      rw [getD_map_range_ge _ _ (Nat.le_of_not_lt hx)]
      simp
  by_cases hij : i < N * 3 ∧ j < N * 3
  · rw [hval i j hij.1 hij.2, hval j i hij.2 hij.1]
    congr 1
    apply List.map_congr_left
    intro e _
    rw [Finset.sum_comm]
    refine Finset.sum_congr rfl fun a _ => Finset.sum_congr rfl fun b _ => ?_
    exact if_congr and_comm (calc_elem_symm e b a) rfl
  · rw [hzero i j hij, hzero j i (by tauto)]

/-! ## Claim C3 machinery: rigid-body translations are in the nullspace
of every element's global stiffness block, so the slot-wise column sums
of the assembled K vanish -/

/-- Entry formula for a conjugated product Tᵗ·(K·T) of square n-by-n
inputs, for indices in range. -/
lemma conjugated_entry (t k : List (List α)) (n : Nat)
    (ht : t.length = n) (hth : (t.headD []).length = n)
    (hk : k.length = n) (hkh : (k.headD []).length = n)
    (hn : 0 < n) (x y : Nat) (hx : x < n) (hy : y < n) :
    NP.mget (NP.matmul (NP.transpose t) (NP.matmul k t)) x y
      = ∑ p in Finset.range n, ∑ q in Finset.range n,
          NP.mget t p x * (NP.mget k p q * NP.mget t q y) := by
  have hTlen : (NP.transpose t).length = n := by
    simp only [NP.transpose, List.length_map, List.length_range]
    exact hth
  have hTh : ((NP.transpose t).headD []).length = n := by
    unfold NP.transpose
    rw [hth]
    rcases n with _ | m
    · omega
    · rw [List.range_succ_eq_map]
      simp only [List.map_cons, List.headD_cons, List.length_map,
        List.length_range]
      exact ht
  have hM1h : ((NP.matmul k t).headD []).length = n := by
    rw [headD_length_matmul k t (by omega), hth]
  rw [mget_matmul, if_pos ⟨by omega, by omega⟩, hTh]
  refine Finset.sum_congr rfl fun p hp => ?_
  have hpn : p < n := by
    rw [Finset.mem_range] at hp
    omega
  rw [mget_transpose, if_pos ⟨by omega, by omega⟩, mget_matmul,
    if_pos ⟨by omega, by omega⟩, hkh, Finset.mul_sum]

/-- Column sums of the frame global block over paired axial rows (0, 3)
and paired shear rows (1, 4) vanish: a rigid translation produces no
elastic force. -/
lemma beam_colsum (A E I l s c : α) (b : Nat) (hb : b < 6) :
    (NP.mget (beam_stiffness_matrix A E I l s c) 0 b
        + NP.mget (beam_stiffness_matrix A E I l s c) 3 b = 0)
      ∧ (NP.mget (beam_stiffness_matrix A E I l s c) 1 b
        + NP.mget (beam_stiffness_matrix A E I l s c) 4 b = 0) := by
  have he := conjugated_entry (transformation_matrix s c)
    (beam_local_stiffness_matrix A E I l) 6 rfl rfl rfl rfl (by omega)
  unfold beam_stiffness_matrix
  constructor
  · rw [he 0 b (by omega) hb, he 3 b (by omega) hb]
    simp only [Finset.sum_range_succ, Finset.sum_range_zero]
    simp only [NP.mget, transformation_matrix, beam_local_stiffness_matrix,
      List.getD_cons_zero, List.getD_cons_succ]
    norm_num
    ring
  · rw [he 1 b (by omega) hb, he 4 b (by omega) hb]
    simp only [Finset.sum_range_succ, Finset.sum_range_zero]
    simp only [NP.mget, transformation_matrix, beam_local_stiffness_matrix,
      List.getD_cons_zero, List.getD_cons_succ]
    norm_num
    ring

/-- Column sums of the spring 4x4 global block over paired rows (0, 2)
and (1, 3) vanish. -/
lemma spring_colsum4 (k s c : α) (q : Nat) (hq : q < 4) :
    (NP.mget (spring_stiffness_matrix k s c) 0 q
        + NP.mget (spring_stiffness_matrix k s c) 2 q = 0)
      ∧ (NP.mget (spring_stiffness_matrix k s c) 1 q
        + NP.mget (spring_stiffness_matrix k s c) 3 q = 0) := by
  unfold spring_stiffness_matrix
  rw [transformation_matrix4_eq]
  have he := conjugated_entry
    [[c, s, 0, 0], [-s, c, 0, 0], [0, 0, c, s], [0, 0, -s, c]]
    (spring_local_stiffness_matrix k) 4 rfl rfl rfl rfl (by omega)
  constructor
  · rw [he 0 q (by omega) hq, he 2 q (by omega) hq]
    simp only [Finset.sum_range_succ, Finset.sum_range_zero]
    simp only [NP.mget, spring_local_stiffness_matrix,
      List.getD_cons_zero, List.getD_cons_succ]
    norm_num
    ring
  · rw [he 1 q (by omega) hq, he 3 q (by omega) hq]
    simp only [Finset.sum_range_succ, Finset.sum_range_zero]
    simp only [NP.mget, spring_local_stiffness_matrix,
      List.getD_cons_zero, List.getD_cons_succ]
    norm_num
    ring

/-- Entry formula for the spring 6x6 expansion at in-range indices. -/
lemma expand_spring_entry (kg : List (List α)) (x y : Nat)
    (hx : x < 6) (hy : y < 6) :
    NP.mget (expand_spring kg) x y
      = (match springSlot x, springSlot y with
         | some r, some c => NP.mget kg r c
         | _, _ => 0) := by
  unfold NP.mget expand_spring
  rw [getD_map_range_lt _ _ hx, getD_map_range_lt _ _ hy]
  rfl

/-- Column sums of every element's assembled 6x6 block over the paired
x-translation rows (0, 3) and y-translation rows (1, 4) vanish. -/
lemma calc_elem_colsum (e : ElemData α) (b : Nat) (hb : b < 6) :
    (NP.mget (calculate_element_stiffness_matrix e) 0 b
        + NP.mget (calculate_element_stiffness_matrix e) 3 b = 0)
      ∧ (NP.mget (calculate_element_stiffness_matrix e) 1 b
        + NP.mget (calculate_element_stiffness_matrix e) 4 b = 0) := by
  unfold calculate_element_stiffness_matrix
  cases e.kind with
  | frame E A I => exact beam_colsum A E I e.length e.sine e.cosine b hb
  | spring k =>
    rw [expand_spring_entry _ 0 b (by omega) hb,
      expand_spring_entry _ 3 b (by omega) hb,
      expand_spring_entry _ 1 b (by omega) hb,
      expand_spring_entry _ 4 b (by omega) hb]
    interval_cases b <;> simp only [springSlot]
    · exact spring_colsum4 k e.sine e.cosine 0 (by omega)
    · exact spring_colsum4 k e.sine e.cosine 1 (by omega)
    · exact ⟨by norm_num, by norm_num⟩
    · exact spring_colsum4 k e.sine e.cosine 2 (by omega)
    · exact spring_colsum4 k e.sine e.cosine 3 (by omega)
    · exact ⟨by norm_num, by norm_num⟩

/-! ## Claim C3 machinery: list-sum bridges and the reaction formula -/

lemma filter_map_sum_range (n : Nat) (p : Nat → Bool) (f : Nat → α) :
    (((List.range n).filter p).map f).sum
      = ∑ d in Finset.range n, if p d then f d else 0 := by
  induction n with
  | zero => rfl
  | succ m ih =>
    rw [List.range_succ, List.filter_append, List.map_append,
      List.sum_append, Finset.sum_range_succ, ih]
    by_cases h : p m
    · simp [h]
    · simp [h]

lemma sum_list_exchange {β : Type} (l : List β) (n : Nat) (g : Nat → β → α) :
    ∑ d in Finset.range n, (l.map (g d)).sum
      = (l.map fun e => ∑ d in Finset.range n, g d e).sum := by
  induction l with
  | nil => simp
  | cons a t ih => simp [Finset.sum_add_distrib, ih]

lemma ite_sum {γ : Type} (c : Prop) [Decidable c] (s : Finset γ)
    (f : γ → α) :
    (if c then ∑ x in s, f x else 0) = ∑ x in s, if c then f x else 0 := by
  by_cases hc : c <;> simp [hc]

lemma ite_list_sum {β : Type} (c : Prop) [Decidable c] (l : List β)
    (f : β → α) :
    (if c then (l.map f).sum else 0) = (l.map fun e => if c then f e else 0).sum := by
  by_cases hc : c
  · simp [hc]
  · simp only [hc, if_false]
    symm
    apply List.sum_eq_zero
    intro x hx
    rcases List.mem_map.mp hx with ⟨e, _, he⟩
    exact he.symm


lemma filter_map_comm {β γ : Type} (l : List β) (f : β → γ) (p : γ → Bool) :
    (l.map f).filter p = (l.filter fun a => p (f a)).map f := by
  induction l with
  | nil => rfl
  | cons a t ih =>
    simp only [List.map_cons, List.filter_cons]
    by_cases h : p (f a)
    · simp [h, ih]
    · simp [h, ih]

lemma getD_map_lt {β γ : Type} (l : List β) (g : β → γ) {i : Nat}
    (d : γ) (db : β) (h : i < l.length) :
    (l.map g).getD i d = g (l.getD i db) := by
  rw [List.getD_eq_getElem _ _ (by simpa using h),
    List.getD_eq_getElem _ _ h]
  simp

lemma mapIdx_map_range {β γ : Type} (n : Nat) (F : Nat → β)
    (g : Nat → β → γ) :
    ((List.range n).map F).mapIdx g = (List.range n).map fun i => g i (F i) := by
  apply List.ext_getElem
  · simp
  · intro i h1 h2
    rw [List.getElem_mapIdx]
    simp

/-- With no member loads anywhere, the equivalent nodal load vector is
identically zero. -/
lemma eq_load_vec_zero (N : Nat) (elements : List (ElemData α))
    (hnoeq : ∀ e ∈ elements, e.eq_load = none) (d : Nat) :
    NP.vget (eq_node_load_vec N elements) d = 0 := by
  unfold NP.vget eq_node_load_vec
  by_cases hd : d < N * 3
  · rw [getD_map_range_lt _ _ hd]
    apply List.sum_eq_zero
    intro x hx
    rcases List.mem_map.mp hx with ⟨e, he, hxe⟩
    rw [hnoeq e he] at hxe
    exact hxe.symm
  · rw [getD_map_range_ge _ _ (Nat.le_of_not_lt hd)]

/-- With no member loads, the effective load vector coincides with the
direct nodal load vector. -/
lemma eff_eq_node_load (nodes : List (NodeData α))
    (elements : List (ElemData α))
    (hnoeq : ∀ e ∈ elements, e.eq_load = none) (d : Nat) :
    NP.vget (eff_node_load_vec nodes elements) d
      = NP.vget (node_load_vec nodes) d := by
  unfold NP.vget eff_node_load_vec
  by_cases hd : d < (node_load_vec nodes).length
  · rw [List.getD_eq_getElem _ _ (by simpa using hd),
      List.getD_eq_getElem _ _ hd]
    rw [List.getElem_mapIdx]
    rw [eq_load_vec_zero _ _ hnoeq]
    exact add_zero _
  · rw [List.getD_eq_default _ _ (by simpa using Nat.le_of_not_lt hd),
      List.getD_eq_default _ _ (Nat.le_of_not_lt hd)]

/-- Entry formula for the assembled stiffness matrix. -/
lemma mget_assemble (N : Nat) (elements : List (ElemData α)) (i j : Nat) :
    NP.mget (assemble_structure_stiffness_matrix N elements) i j
      = if i < N * 3 ∧ j < N * 3 then
          (elements.map fun e =>
            ∑ a in Finset.range 6, ∑ b in Finset.range 6,
              if (elem_dofs e).getD a 0 = i ∧ (elem_dofs e).getD b 0 = j
              then NP.mget (calculate_element_stiffness_matrix e) a b
              else 0).sum
        else 0 := by
  unfold NP.mget assemble_structure_stiffness_matrix
  by_cases hi : i < N * 3
  · rw [getD_map_range_lt _ _ hi]
    by_cases hj : j < N * 3
    · rw [getD_map_range_lt _ _ hj, if_pos ⟨hi, hj⟩]
      rfl
    · rw [getD_map_range_ge _ _ (Nat.le_of_not_lt hj), if_neg (by tauto)]
  · rw [getD_map_range_ge _ _ (Nat.le_of_not_lt hi), if_neg (by tauto)]
    rfl

/-- The reactions list is the list of fixed-DOF row products minus the
equivalent loads at those DOFs, in fixed-DOF order. -/
lemma find_reactions_eq (nodes : List (NodeData α))
    (elements : List (ElemData α)) (U : List α) :
    find_reactions nodes elements U
      = (fix_dof nodes).map fun d =>
          (∑ k in Finset.range (nodes.length * 3),
            NP.mget (assemble_structure_stiffness_matrix nodes.length
              elements) d k * NP.vget U k)
            - NP.vget (eq_node_load_vec nodes.length elements) d := by
  unfold find_reactions
  by_cases hfix : (fix_dof nodes).isEmpty
  · rw [if_pos hfix, List.isEmpty_iff.mp hfix]
    rfl
  · rw [if_neg hfix]
    show (NP.matmulVec
        (NP.ix_ (assemble_structure_stiffness_matrix nodes.length elements)
          (fix_dof nodes) (List.range (nodes.length * 3))) U).mapIdx
        (fun i v => v - NP.vget ((fix_dof nodes).map fun d =>
          NP.vget (eq_node_load_vec nodes.length elements) d) i)
      = _
    have hne : fix_dof nodes ≠ [] := by
      intro hc
      rw [hc] at hfix
      exact hfix rfl
    have hlenK : (NP.ix_ (assemble_structure_stiffness_matrix nodes.length
        elements) (fix_dof nodes)
        (List.range (nodes.length * 3))).length = (fix_dof nodes).length := by
      simp [NP.ix_]
    have hheadK : ((NP.ix_ (assemble_structure_stiffness_matrix nodes.length
        elements) (fix_dof nodes)
        (List.range (nodes.length * 3))).headD []).length
          = nodes.length * 3 := by
      rcases hfe : fix_dof nodes with _ | ⟨f0, rest⟩
      · exact absurd hfe hne
      · simp [NP.ix_, hfe]
    unfold NP.matmulVec
    rw [hlenK, hheadK, mapIdx_map_range]
    apply List.ext_getElem
    · simp
    · intro i h1 h2
      simp only [List.getElem_map, List.getElem_range]
      have hi : i < (fix_dof nodes).length := by simpa using h2
      congr 1
      · refine Finset.sum_congr rfl fun k hk => ?_
        have hkn : k < nodes.length * 3 := by
          rw [Finset.mem_range] at hk
          omega
        congr 1
        unfold NP.mget NP.ix_
        rw [getD_map_lt _ _ [] 0 hi, getD_map_range_lt _ _ hkn,
          List.getD_eq_getElem _ _ hi]
        rfl
      · unfold NP.vget
        rw [getD_map_lt _ _ 0 0 hi, List.getD_eq_getElem _ _ hi]

lemma ite_pair_zero {P : Prop} [Decidable P] {x y : α} (h : x + y = 0) :
    (if P then x else 0) + (if P then y else 0) = 0 := by
  split_ifs with hP
  · exact h
  · norm_num

/-- The scatter indices of an element written out. -/
lemma elem_dofs_eq (e : ElemData α) :
    elem_dofs e
      = [(e.node_i - 1) * 3, (e.node_i - 1) * 3 + 1, (e.node_i - 1) * 3 + 2,
         (e.node_j - 1) * 3, (e.node_j - 1) * 3 + 1,
         (e.node_j - 1) * 3 + 2] := rfl

/-- The x-slot (or y-slot) rows of one element's scatter contribution to
any column j of K sum to zero over all DOFs. -/
lemma elem_slot_sum_zero (e : ElemData α) (N : Nat)
    (hni : 1 ≤ e.node_i) (hni' : e.node_i ≤ N)
    (hnj : 1 ≤ e.node_j) (hnj' : e.node_j ≤ N)
    (slot j : Nat) (hslot : slot = 0 ∨ slot = 1) :
    ∑ d in Finset.range (N * 3),
      (if d % 3 = slot then
        ∑ a in Finset.range 6, ∑ b in Finset.range 6,
          if (elem_dofs e).getD a 0 = d ∧ (elem_dofs e).getD b 0 = j
          then NP.mget (calculate_element_stiffness_matrix e) a b else 0
      else 0) = 0 := by
  have g0 : (elem_dofs e).getD 0 0 = (e.node_i - 1) * 3 := rfl
  have g1 : (elem_dofs e).getD 1 0 = (e.node_i - 1) * 3 + 1 := rfl
  have g2 : (elem_dofs e).getD 2 0 = (e.node_i - 1) * 3 + 2 := rfl
  have g3 : (elem_dofs e).getD 3 0 = (e.node_j - 1) * 3 := rfl
  have g4 : (elem_dofs e).getD 4 0 = (e.node_j - 1) * 3 + 1 := rfl
  have g5 : (elem_dofs e).getD 5 0 = (e.node_j - 1) * 3 + 2 := rfl
  have hbound : ∀ a, a < 6 → (elem_dofs e).getD a 0 < N * 3 := by
    intro a ha
    interval_cases a <;>
      simp only [g0, g1, g2, g3, g4, g5] <;> omega
  have step1 : ∀ d : Nat,
      (if d % 3 = slot then
        ∑ a in Finset.range 6, ∑ b in Finset.range 6,
          if (elem_dofs e).getD a 0 = d ∧ (elem_dofs e).getD b 0 = j
          then NP.mget (calculate_element_stiffness_matrix e) a b else 0
      else 0)
      = ∑ a in Finset.range 6, ∑ b in Finset.range 6,
          (if (elem_dofs e).getD a 0 = d then
            (if d % 3 = slot ∧ (elem_dofs e).getD b 0 = j
             then NP.mget (calculate_element_stiffness_matrix e) a b else 0)
          else 0) := by
    intro d
    rw [ite_sum]
    refine Finset.sum_congr rfl fun a _ => ?_
    rw [ite_sum]
    refine Finset.sum_congr rfl fun b _ => ?_
    split_ifs <;> first | rfl | tauto
  rw [Finset.sum_congr rfl fun d _ => step1 d, Finset.sum_comm]
  have inner_eq : ∀ a ∈ Finset.range 6,
      (∑ d in Finset.range (N * 3), ∑ b in Finset.range 6,
        (if (elem_dofs e).getD a 0 = d then
          (if d % 3 = slot ∧ (elem_dofs e).getD b 0 = j
           then NP.mget (calculate_element_stiffness_matrix e) a b else 0)
        else 0))
      = ∑ b in Finset.range 6,
          (if (elem_dofs e).getD a 0 % 3 = slot
              ∧ (elem_dofs e).getD b 0 = j
           then NP.mget (calculate_element_stiffness_matrix e) a b else 0) := by
    intro a ha
    rw [Finset.sum_comm]
    refine Finset.sum_congr rfl fun b _ => ?_
    rw [Finset.sum_ite_eq, if_pos]
    rw [Finset.mem_range]
    exact hbound a (Finset.mem_range.mp ha)
  rw [Finset.sum_congr rfl inner_eq]
  have m0 : ((e.node_i - 1) * 3) % 3 = 0 := by omega
  have m1 : ((e.node_i - 1) * 3 + 1) % 3 = 1 := by omega
  have m2 : ((e.node_i - 1) * 3 + 2) % 3 = 2 := by omega
  have m3 : ((e.node_j - 1) * 3) % 3 = 0 := by omega
  have m4 : ((e.node_j - 1) * 3 + 1) % 3 = 1 := by omega
  have m5 : ((e.node_j - 1) * 3 + 2) % 3 = 2 := by omega
  rcases hslot with rfl | rfl
  · simp only [Finset.sum_range_succ, Finset.sum_range_zero, zero_add,
      g0, g1, g2, g3, g4, g5, m0, m1, m2, m3, m4, m5]
    norm_num
    have p0 : (if (e.node_i - 1) * 3 = j then
        NP.mget (calculate_element_stiffness_matrix e) 0 0 else 0)
        + (if (e.node_i - 1) * 3 = j then
          NP.mget (calculate_element_stiffness_matrix e) 3 0 else 0) = 0 :=
      ite_pair_zero ((calc_elem_colsum e 0 (by omega)).1)
    have p1 : (if (e.node_i - 1) * 3 + 1 = j then
        NP.mget (calculate_element_stiffness_matrix e) 0 1 else 0)
        + (if (e.node_i - 1) * 3 + 1 = j then
          NP.mget (calculate_element_stiffness_matrix e) 3 1 else 0) = 0 :=
      ite_pair_zero ((calc_elem_colsum e 1 (by omega)).1)
    have p2 : (if (e.node_i - 1) * 3 + 2 = j then
        NP.mget (calculate_element_stiffness_matrix e) 0 2 else 0)
        + (if (e.node_i - 1) * 3 + 2 = j then
          NP.mget (calculate_element_stiffness_matrix e) 3 2 else 0) = 0 :=
      ite_pair_zero ((calc_elem_colsum e 2 (by omega)).1)
    have p3 : (if (e.node_j - 1) * 3 = j then
        NP.mget (calculate_element_stiffness_matrix e) 0 3 else 0)
        + (if (e.node_j - 1) * 3 = j then
          NP.mget (calculate_element_stiffness_matrix e) 3 3 else 0) = 0 :=
      ite_pair_zero ((calc_elem_colsum e 3 (by omega)).1)
    have p4 : (if (e.node_j - 1) * 3 + 1 = j then
        NP.mget (calculate_element_stiffness_matrix e) 0 4 else 0)
        + (if (e.node_j - 1) * 3 + 1 = j then
          NP.mget (calculate_element_stiffness_matrix e) 3 4 else 0) = 0 :=
      ite_pair_zero ((calc_elem_colsum e 4 (by omega)).1)
    have p5 : (if (e.node_j - 1) * 3 + 2 = j then
        NP.mget (calculate_element_stiffness_matrix e) 0 5 else 0)
        + (if (e.node_j - 1) * 3 + 2 = j then
          NP.mget (calculate_element_stiffness_matrix e) 3 5 else 0) = 0 :=
      ite_pair_zero ((calc_elem_colsum e 5 (by omega)).1)
    linarith [p0, p1, p2, p3, p4, p5]
  · simp only [Finset.sum_range_succ, Finset.sum_range_zero, zero_add,
      g0, g1, g2, g3, g4, g5, m0, m1, m2, m3, m4, m5]
    norm_num
    have p0 : (if (e.node_i - 1) * 3 = j then
        NP.mget (calculate_element_stiffness_matrix e) 1 0 else 0)
        + (if (e.node_i - 1) * 3 = j then
          NP.mget (calculate_element_stiffness_matrix e) 4 0 else 0) = 0 :=
      ite_pair_zero ((calc_elem_colsum e 0 (by omega)).2)
    have p1 : (if (e.node_i - 1) * 3 + 1 = j then
        NP.mget (calculate_element_stiffness_matrix e) 1 1 else 0)
        + (if (e.node_i - 1) * 3 + 1 = j then
          NP.mget (calculate_element_stiffness_matrix e) 4 1 else 0) = 0 :=
      ite_pair_zero ((calc_elem_colsum e 1 (by omega)).2)
    have p2 : (if (e.node_i - 1) * 3 + 2 = j then
        NP.mget (calculate_element_stiffness_matrix e) 1 2 else 0)
        + (if (e.node_i - 1) * 3 + 2 = j then
          NP.mget (calculate_element_stiffness_matrix e) 4 2 else 0) = 0 :=
      ite_pair_zero ((calc_elem_colsum e 2 (by omega)).2)
    have p3 : (if (e.node_j - 1) * 3 = j then
        NP.mget (calculate_element_stiffness_matrix e) 1 3 else 0)
        + (if (e.node_j - 1) * 3 = j then
          NP.mget (calculate_element_stiffness_matrix e) 4 3 else 0) = 0 :=
      ite_pair_zero ((calc_elem_colsum e 3 (by omega)).2)
    have p4 : (if (e.node_j - 1) * 3 + 1 = j then
        NP.mget (calculate_element_stiffness_matrix e) 1 4 else 0)
        + (if (e.node_j - 1) * 3 + 1 = j then
          NP.mget (calculate_element_stiffness_matrix e) 4 4 else 0) = 0 :=
      ite_pair_zero ((calc_elem_colsum e 4 (by omega)).2)
    have p5 : (if (e.node_j - 1) * 3 + 2 = j then
        NP.mget (calculate_element_stiffness_matrix e) 1 5 else 0)
        + (if (e.node_j - 1) * 3 + 2 = j then
          NP.mget (calculate_element_stiffness_matrix e) 4 5 else 0) = 0 :=
      ite_pair_zero ((calc_elem_colsum e 5 (by omega)).2)
    linarith [p0, p1, p2, p3, p4, p5]


/-- The x-slot (or y-slot) rows of the assembled K sum to zero in every
column: rigid-body translations are in the nullspace of K. -/
lemma K_slot_colsum (N : Nat) (elements : List (ElemData α))
    (hvalid : ∀ e ∈ elements, 1 ≤ e.node_i ∧ e.node_i ≤ N
      ∧ 1 ≤ e.node_j ∧ e.node_j ≤ N)
    (slot : Nat) (hslot : slot = 0 ∨ slot = 1) (j : Nat) :
    ∑ d in Finset.range (N * 3),
      (if d % 3 = slot
       then NP.mget (assemble_structure_stiffness_matrix N elements) d j
       else 0) = 0 := by
  by_cases hj : j < N * 3
  · have hstep : ∀ d ∈ Finset.range (N * 3),
        (if d % 3 = slot
         then NP.mget (assemble_structure_stiffness_matrix N elements) d j
         else 0)
          = (elements.map fun e =>
              if d % 3 = slot then
                ∑ a in Finset.range 6, ∑ b in Finset.range 6,
                  if (elem_dofs e).getD a 0 = d ∧ (elem_dofs e).getD b 0 = j
                  then NP.mget (calculate_element_stiffness_matrix e) a b
                  else 0
              else 0).sum := by
      intro d hd
      rw [mget_assemble,
        if_pos (show d < N * 3 ∧ j < N * 3 from ⟨Finset.mem_range.mp hd, hj⟩),
        ite_list_sum]
    rw [Finset.sum_congr rfl hstep, sum_list_exchange]
    apply List.sum_eq_zero
    intro x hx
    rcases List.mem_map.mp hx with ⟨e, he, hxe⟩
    rw [← hxe]
    obtain ⟨h1, h2, h3, h4⟩ := hvalid e he
    exact elem_slot_sum_zero e N h1 h2 h3 h4 slot j hslot
  · apply Finset.sum_eq_zero
    intro d _
    have hnj : ¬(d < N * 3 ∧ j < N * 3) := fun h => hj h.2
    rw [mget_assemble]
    simp [hnj]

/-- C3 (amended): for every structure whose members reference valid node
indices, with no member loads, no direct nodal loads at fixed DOFs, and
any displacement vector that satisfies the free-DOF equations of the
effective load exactly (as the solve step produces for a nonsingular
reduced system), the global-X components of the reactions plus the
global-X components of the direct nodal load vector sum to zero, and
likewise for global Y. -/
theorem reactions_balance_nodal_loads (nodes : List (NodeData α))
    (elements : List (ElemData α)) (U : List α)
    (hvalid : ∀ e ∈ elements, 1 ≤ e.node_i ∧ e.node_i ≤ nodes.length
      ∧ 1 ≤ e.node_j ∧ e.node_j ≤ nodes.length)
    (hnoeq : ∀ e ∈ elements, e.eq_load = none)
    (hfix0 : ∀ d ∈ fix_dof nodes, NP.vget (node_load_vec nodes) d = 0)
    (hsolve : ∀ d ∈ free_dof nodes,
      (∑ k in Finset.range (nodes.length * 3),
        NP.mget (assemble_structure_stiffness_matrix nodes.length elements)
          d k * NP.vget U k)
        = NP.vget (eff_node_load_vec nodes elements) d) :
    (((((fix_dof nodes).zip (find_reactions nodes elements U)).filter
          (fun p => p.1 % 3 == 0)).map Prod.snd).sum
        + (((List.range (nodes.length * 3)).filter (fun d => d % 3 == 0)).map
            (fun d => NP.vget (node_load_vec nodes) d)).sum = 0)
      ∧ (((((fix_dof nodes).zip (find_reactions nodes elements U)).filter
          (fun p => p.1 % 3 == 1)).map Prod.snd).sum
        + (((List.range (nodes.length * 3)).filter (fun d => d % 3 == 1)).map
            (fun d => NP.vget (node_load_vec nodes) d)).sum = 0) := by
  have main : ∀ slot : Nat, slot = 0 ∨ slot = 1 →
      ((((fix_dof nodes).zip (find_reactions nodes elements U)).filter
          (fun p => p.1 % 3 == slot)).map Prod.snd).sum
        + (((List.range (nodes.length * 3)).filter
            (fun d => d % 3 == slot)).map
            (fun d => NP.vget (node_load_vec nodes) d)).sum = 0 := by
    intro slot hslot
    rw [find_reactions_eq, ← List.map_prod_left_eq_zip, filter_map_comm,
      List.map_map]
    show (((fix_dof nodes).filter (fun d => d % 3 == slot)).map
        (fun d => (∑ k in Finset.range (nodes.length * 3),
          NP.mget (assemble_structure_stiffness_matrix nodes.length elements)
            d k * NP.vget U k)
          - NP.vget (eq_node_load_vec nodes.length elements) d)).sum
      + (((List.range (nodes.length * 3)).filter
          (fun d => d % 3 == slot)).map
          (fun d => NP.vget (node_load_vec nodes) d)).sum = 0
    unfold fix_dof
    rw [List.filter_filter, filter_map_sum_range, filter_map_sum_range]
    have hgz : ∀ d, NP.vget (eq_node_load_vec nodes.length elements) d = 0 :=
      eq_load_vec_zero _ _ hnoeq
    have hreact : (∑ d in Finset.range (nodes.length * 3),
        if ((d % 3 == slot)
            && !((free_dofs_flags nodes).getD d 0 == 1)) = true then
          (∑ k in Finset.range (nodes.length * 3),
            NP.mget (assemble_structure_stiffness_matrix nodes.length
              elements) d k * NP.vget U k)
            - NP.vget (eq_node_load_vec nodes.length elements) d
        else 0)
        = ∑ d in Finset.range (nodes.length * 3),
            if d % 3 = slot ∧ ¬(free_dofs_flags nodes).getD d 0 = 1 then
              (∑ k in Finset.range (nodes.length * 3),
                NP.mget (assemble_structure_stiffness_matrix nodes.length
                  elements) d k * NP.vget U k)
            else 0 := by
      refine Finset.sum_congr rfl fun d _ => ?_
      rw [hgz, sub_zero]
      refine if_congr ?_ rfl rfl
      simp [Bool.and_eq_true]
    have hload : (∑ d in Finset.range (nodes.length * 3),
        if (d % 3 == slot) = true then NP.vget (node_load_vec nodes) d
        else 0)
        = ∑ d in Finset.range (nodes.length * 3),
            if d % 3 = slot then NP.vget (node_load_vec nodes) d else 0 := by
      refine Finset.sum_congr rfl fun d _ => ?_
      refine if_congr ?_ rfl rfl
      simp
    rw [hreact, hload]
    have hSallK : (∑ d in Finset.range (nodes.length * 3),
        if d % 3 = slot then
          (∑ k in Finset.range (nodes.length * 3),
            NP.mget (assemble_structure_stiffness_matrix nodes.length
              elements) d k * NP.vget U k)
        else 0) = 0 := by
      have h1 : ∀ d ∈ Finset.range (nodes.length * 3),
          (if d % 3 = slot then
            (∑ k in Finset.range (nodes.length * 3),
              NP.mget (assemble_structure_stiffness_matrix nodes.length
                elements) d k * NP.vget U k)
          else 0)
            = ∑ k in Finset.range (nodes.length * 3),
                (if d % 3 = slot then
                  NP.mget (assemble_structure_stiffness_matrix nodes.length
                    elements) d k * NP.vget U k
                else 0) := fun d _ => ite_sum _ _ _
      rw [Finset.sum_congr rfl h1, Finset.sum_comm]
      refine Finset.sum_eq_zero fun k _ => ?_
      have h2 : ∀ d ∈ Finset.range (nodes.length * 3),
          (if d % 3 = slot then
            NP.mget (assemble_structure_stiffness_matrix nodes.length
              elements) d k * NP.vget U k
          else 0)
            = (if d % 3 = slot then
                NP.mget (assemble_structure_stiffness_matrix nodes.length
                  elements) d k
              else 0) * NP.vget U k := fun d _ => (ite_zero_mul _ _ _).symm
      rw [Finset.sum_congr rfl h2, ← Finset.sum_mul,
        K_slot_colsum nodes.length elements hvalid slot hslot k, zero_mul]
    have hsplit : ∀ F : Nat → α,
        (∑ d in Finset.range (nodes.length * 3),
          if d % 3 = slot then F d else 0)
          = (∑ d in Finset.range (nodes.length * 3),
              if d % 3 = slot ∧ ¬(free_dofs_flags nodes).getD d 0 = 1 then
                F d else 0)
            + (∑ d in Finset.range (nodes.length * 3),
                if d % 3 = slot ∧ (free_dofs_flags nodes).getD d 0 = 1 then
                  F d else 0) := by
      intro F
      rw [← Finset.sum_add_distrib]
      refine Finset.sum_congr rfl fun d _ => ?_
      by_cases h1 : d % 3 = slot <;>
        by_cases h2 : (free_dofs_flags nodes).getD d 0 = 1
      · rw [if_pos h1, if_neg (fun hc => hc.2 h2), if_pos ⟨h1, h2⟩, zero_add]
      · rw [if_pos h1, if_pos ⟨h1, h2⟩, if_neg (fun hc => h2 hc.2), add_zero]
      · rw [if_neg h1, if_neg (fun hc => h1 hc.1), if_neg (fun hc => h1 hc.1),
          add_zero]
      · rw [if_neg h1, if_neg (fun hc => h1 hc.1), if_neg (fun hc => h1 hc.1),
          add_zero]
    have hfree : (∑ d in Finset.range (nodes.length * 3),
        if d % 3 = slot ∧ (free_dofs_flags nodes).getD d 0 = 1 then
          (∑ k in Finset.range (nodes.length * 3),
            NP.mget (assemble_structure_stiffness_matrix nodes.length
              elements) d k * NP.vget U k)
        else 0)
        = ∑ d in Finset.range (nodes.length * 3),
            if d % 3 = slot ∧ (free_dofs_flags nodes).getD d 0 = 1 then
              NP.vget (node_load_vec nodes) d else 0 := by
      refine Finset.sum_congr rfl fun d hd => ?_
      by_cases hc : d % 3 = slot ∧ (free_dofs_flags nodes).getD d 0 = 1
      · rw [if_pos hc, if_pos hc]
        have hdf : d ∈ free_dof nodes := by
          unfold free_dof
          rw [List.mem_filter, List.mem_range]
          exact ⟨Finset.mem_range.mp hd, by simpa using hc.2⟩
        rw [hsolve d hdf, eff_eq_node_load nodes elements hnoeq]
      · rw [if_neg hc, if_neg hc]
    have hfixnl : (∑ d in Finset.range (nodes.length * 3),
        if d % 3 = slot ∧ ¬(free_dofs_flags nodes).getD d 0 = 1 then
          NP.vget (node_load_vec nodes) d else 0) = 0 := by
      refine Finset.sum_eq_zero fun d hd => ?_
      by_cases hc : d % 3 = slot ∧ ¬(free_dofs_flags nodes).getD d 0 = 1
      · rw [if_pos hc]
        apply hfix0
        unfold fix_dof
        rw [List.mem_filter, List.mem_range]
        exact ⟨Finset.mem_range.mp hd, by simpa using hc.2⟩
      · rw [if_neg hc]
    have hKsplit := hsplit fun d =>
      ∑ k in Finset.range (nodes.length * 3),
        NP.mget (assemble_structure_stiffness_matrix nodes.length elements)
          d k * NP.vget U k
    have hnlsplit := hsplit fun d => NP.vget (node_load_vec nodes) d
    linarith [hSallK, hKsplit, hnlsplit, hfree, hfixnl]
  exact ⟨main 0 (Or.inl rfl), main 1 (Or.inr rfl)⟩

/-- Witness for the amended C3 on the concrete spring structure: node n1
fully fixed, node n2 carrying the axial load 50, the spring of stiffness
100 between them, and the exact displacement vector [0,0,0,1/2,0,0]; all
hypotheses hold by computation and the X and Y balance sums are zero. -/
theorem reactions_balance_nodal_loads_witness :
    (∀ e ∈ springElems, 1 ≤ e.node_i ∧ e.node_i ≤ springNodes.length
      ∧ 1 ≤ e.node_j ∧ e.node_j ≤ springNodes.length)
    ∧ (∀ e ∈ springElems, e.eq_load = none)
    ∧ (∀ d ∈ fix_dof springNodes, NP.vget (node_load_vec springNodes) d = 0)
    ∧ (∀ d ∈ free_dof springNodes,
        (∑ k in Finset.range (springNodes.length * 3),
          NP.mget (assemble_structure_stiffness_matrix springNodes.length
            springElems) d k * NP.vget springU k)
          = NP.vget (eff_node_load_vec springNodes springElems) d)
    ∧ ((((((fix_dof springNodes).zip
          (find_reactions springNodes springElems springU)).filter
          (fun p => p.1 % 3 == 0)).map Prod.snd).sum
        + (((List.range (springNodes.length * 3)).filter
            (fun d => d % 3 == 0)).map
            (fun d => NP.vget (node_load_vec springNodes) d)).sum = 0)
      ∧ (((((fix_dof springNodes).zip
          (find_reactions springNodes springElems springU)).filter
          (fun p => p.1 % 3 == 1)).map Prod.snd).sum
        + (((List.range (springNodes.length * 3)).filter
            (fun d => d % 3 == 1)).map
            (fun d => NP.vget (node_load_vec springNodes) d)).sum = 0)) :=
  ⟨by decide, by decide, by decide, by decide,
    reactions_balance_nodal_loads springNodes springElems springU
      (by decide) (by decide) (by decide) (by decide)⟩

end Frame2D
